import Mathlib

/-!
# Verification of the grid-game simulation core (`game.py`)

This file gives a shallow embedding of the multiplayer game core
(`Game` in `game.py`) and proves the specification claims about it.

Modelling conventions:
* Python dicts become association lists (`List (κ × α)`) with
  insertion-order-preserving update (`setKey`), mirroring dict
  assignment semantics; `dropKey` mirrors `del`.
* Coordinates are `Int × Int`; user ids are `Int`; lives are `Int`
  (the code compares them with `<= 0`); item counts are `Nat`.
* Every call to the `random` module is replaced by an explicit input:
  `random.randint` draws become attempt lists (the source always draws
  in-range cells and bounds the number of attempts; the attempt list
  stands for that bounded stream), `random.choices` over positively
  weighted candidates becomes an arbitrary index into the candidate
  list (all weights 3 / 1 / 0.5 are positive, so the support of the
  weighted draw is exactly the candidate list).
* The constructor's render-size cap on width/height is inert for every
  table entry with the default glyph set (all fields are far below the
  cap), so `initGame` takes width/height straight from the level table.
-/

/-- Association-list lookup: first entry with the given key (dict lookup). -/
def lookupKey {α β : Type} [DecidableEq α] : List (α × β) → α → Option β
  | [], _ => none
  | e :: t, k => if e.1 = k then some e.2 else lookupKey t k

/-- Association-list update: overwrite in place, else append
(Python dict assignment keeps insertion order). -/
def setKey {α β : Type} [DecidableEq α] : List (α × β) → α → β → List (α × β)
  | [], k, v => [(k, v)]
  | e :: t, k, v => if e.1 = k then (k, v) :: t else e :: setKey t k v

/-- Association-list deletion (Python `del d[k]`). -/
def dropKey {α β : Type} [DecidableEq α] (l : List (α × β)) (k : α) : List (α × β) :=
  l.filter (fun e => e.1 ≠ k)

/-- Default player glyph palette (`DEFAULT_PLAYER_EMOJIS` in `game.py`). -/
def DEFAULT_PLAYER_EMOJIS : List String := ["🟢", "🔵", "🟡", "🟣"]

/-- `PLAYER_LIVES` from `config.py`. -/
def PLAYER_LIVES : Int := 3

/-- `ZOMBIE_MOVE_INTERVAL` from `config.py`. -/
def ZOMBIE_MOVE_INTERVAL : Nat := 2

/-- The per-level generation parameters (`LEVEL_CONFIGS` row). -/
structure LevelConfig where
  min_items : Nat
  max_items : Nat
  width : Int
  height : Int
  obstacle_count : Nat
deriving DecidableEq

/-- `LEVEL_CONFIGS` with the `DEFAULT_LEVEL_CONFIG` fallback (`config.py`). -/
def levelConfig (level : Int) : LevelConfig :=
  if level = 1 then ⟨2, 3, 8, 5, 2⟩
  else if level = 2 then ⟨3, 4, 10, 6, 3⟩
  else if level = 3 then ⟨4, 5, 12, 7, 4⟩
  else if level = 4 then ⟨5, 6, 14, 8, 5⟩
  else if level = 5 then ⟨6, 7, 16, 9, 6⟩
  else ⟨7, 8, 18, 10, 7⟩

/-- The mutable state of one `Game` instance (`Game.__init__` fields). -/
structure GameState where
  width : Int
  height : Int
  obstacles : List (Int × Int)
  item_types : List String
  required_items_count : Nat
  player_emojis_list : List String
  level : Int
  players : List Int
  player_positions : List (Int × (Int × Int))
  collected_items : List (Int × List (String × Nat))
  player_lives : List (Int × Int)
  player_emojis : List (Int × String)
  player_wins : List (Int × Nat)
  winner : Option Int
  items : List ((Int × Int) × String)
  portal_pos : Option (Int × Int)
  level_complete : Bool
  zombies : List (Int × Int)
  zombie_move_counter : Nat
  game_over : Bool
deriving DecidableEq

/-- A coordinate lies on the field. -/
def inBounds (g : GameState) (p : Int × Int) : Prop :=
  0 ≤ p.1 ∧ p.1 < g.width ∧ 0 ≤ p.2 ∧ p.2 < g.height

instance (g : GameState) (p : Int × Int) : Decidable (inBounds g p) := by
  unfold inBounds; infer_instance

/-- All-zero inventory over the configured item catalog
(`{item_type: 0 for item_type in self.item_types.keys()}`). -/
def zeroInventory (types : List String) : List (String × Nat) :=
  types.map (fun t => (t, 0))

/-- `sum(self.collected_items[user_id].values())`. -/
def totalItems (inv : List (String × Nat)) : Nat :=
  (inv.map (·.2)).sum

/-- `self.collected_items[user_id][item_type] += 1` (the key is always
present in the source because inventories are initialized over the full
catalog; a missing key is modelled as a no-op). -/
def bumpItem (inv : List (String × Nat)) (t : String) : List (String × Nat) :=
  inv.map (fun e => if e.1 = t then (e.1, e.2 + 1) else e)

/-- `Game.can_reach_portal`. -/
def can_reach_portal (g : GameState) (uid : Int) : Bool :=
  match lookupKey g.collected_items uid with
  | none => false
  | some inv => decide (g.required_items_count ≤ totalItems inv)

/-- Row-major enumeration of all field cells
(`for y in range(height): for x in range(width)`). -/
def scanPositions (w h : Int) : List (Int × Int) :=
  (List.range h.toNat).flatMap
    (fun y : Nat => (List.range w.toNat).map (fun x : Nat => ((x : Int), (y : Int))))

/-- Bounded random attempts followed by an exhaustive row-major scan for
the first cell outside `blocked`; shared shape of
`Game._generate_start_position` and `Game._generate_portal`. -/
def pickFree (w h : Int) (attempts : List (Int × Int)) (blocked : List (Int × Int)) :
    Option (Int × Int) :=
  match attempts.find? (fun p => decide (p ∉ blocked)) with
  | some p => some p
  | none => (scanPositions w h).find? (fun p => decide (p ∉ blocked))

/-- `Game._generate_start_position`: blocked set is the obstacles plus
the caller-supplied exclusions. -/
def generate_start_position (g : GameState) (attempts : List (Int × Int))
    (exclude : List (Int × Int)) : Option (Int × Int) :=
  pickFree g.width g.height attempts (g.obstacles ++ exclude)

/-- Add to a set modelled as a duplicate-free list (`set.add`). -/
def insertPos (s : List (Int × Int)) (p : Int × Int) : List (Int × Int) :=
  if p ∈ s then s else s ++ [p]

/-- `Game._generate_obstacles`: draw cells until the requested count is
reached or the attempt stream is exhausted; duplicates coalesce. -/
def generate_obstacles (count : Nat) : List (Int × Int) → List (Int × Int) → List (Int × Int)
  | [], acc => acc
  | p :: rest, acc =>
    if count ≤ acc.length then acc
    else generate_obstacles count rest (insertPos acc p)

/-- Loop body of `Game._generate_items` over the typed attempt stream. -/
def generate_items_go (blocked : List (Int × Int)) (target : Nat) :
    List ((Int × Int) × String) → List ((Int × Int) × String) → List ((Int × Int) × String)
  | [], acc => acc
  | a :: rest, acc =>
    if target ≤ acc.length then acc
    else if a.1 ∈ blocked then generate_items_go blocked target rest acc
    else generate_items_go blocked target rest (setKey acc a.1 a.2)

/-- `Game._generate_items`: items avoid obstacles and player positions;
`target` is `required + surplus` where the surplus draw is `randint(2,4)`. -/
def generate_items (g : GameState) (target : Nat) (attempts : List ((Int × Int) × String)) :
    List ((Int × Int) × String) :=
  generate_items_go (g.obstacles ++ g.player_positions.map (·.2)) target attempts []

/-- `Game._generate_portal`: avoids obstacles, player positions, items. -/
def generate_portal (g : GameState) (attempts : List (Int × Int)) : Option (Int × Int) :=
  pickFree g.width g.height attempts
    (g.obstacles ++ g.player_positions.map (·.2) ++ g.items.map (·.1))

/-- Loop body of `Game._generate_zombies`: the blocked set grows with
each placed zombie. -/
def generate_zombies_go (wanted : Nat) :
    List (Int × Int) → List (Int × Int) → List (Int × Int) → List (Int × Int)
  | [], _, acc => acc
  | p :: rest, blocked, acc =>
    if wanted ≤ acc.length then acc
    else if p ∈ blocked then generate_zombies_go wanted rest blocked acc
    else generate_zombies_go wanted rest (p :: blocked) (acc ++ [p])

/-- `Game._generate_zombies`: avoids obstacles, player positions, items,
portal, and already-placed zombies. -/
def generate_zombies (g : GameState) (wanted : Nat) (attempts : List (Int × Int)) :
    List (Int × Int) :=
  let blocked := g.obstacles ++ g.player_positions.map (·.2) ++ g.items.map (·.1) ++
    (match g.portal_pos with | some p => [p] | none => [])
  generate_zombies_go wanted attempts blocked []

/-- The exclusion set `add_player` builds for the spawn draw: other
players' positions, items, portal.  Note it does not contain zombies. -/
def spawnExclusions (g : GameState) : List (Int × Int) :=
  g.player_positions.map (·.2) ++ g.items.map (·.1) ++
    (match g.portal_pos with | some p => [p] | none => [])

/-- `Game.add_player`. -/
def add_player (g : GameState) (uid : Int) (lives : Option Int)
    (attempts : List (Int × Int)) : Bool × GameState :=
  if (lookupKey g.player_positions uid).isSome then (false, g)
  else
    let emoji := g.player_emojis_list.getD (g.players.length % g.player_emojis_list.length) ""
    match generate_start_position g attempts (spawnExclusions g) with
    | none => (false, g)
    | some pos =>
      (true, { g with
        players := g.players ++ [uid],
        player_positions := setKey g.player_positions uid pos,
        player_emojis := setKey g.player_emojis uid emoji,
        player_lives := setKey g.player_lives uid (lives.getD PLAYER_LIVES),
        collected_items := setKey g.collected_items uid (zeroInventory g.item_types),
        player_wins :=
          if (lookupKey g.player_wins uid).isSome then g.player_wins
          else setKey g.player_wins uid 0 })

/-- `Game.remove_player`: drops the player from positions, inventory,
lives, emoji and roster tables; the win record is kept. -/
def remove_player (g : GameState) (uid : Int) : GameState :=
  if (lookupKey g.player_positions uid).isSome then
    { g with
      player_positions := dropKey g.player_positions uid,
      collected_items := dropKey g.collected_items uid,
      player_lives := dropKey g.player_lives uid,
      player_emojis := dropKey g.player_emojis uid,
      players := g.players.erase uid }
  else g

/-- One iteration of the collision loop in `Game._check_zombie_collision`,
for one snapshot entry `(user_id, player_pos)`. -/
def collideOne (acc : GameState) (e : Int × (Int × Int)) : GameState :=
  if e.2 ∈ acc.zombies then
    let acc1 : GameState :=
      { acc with
        player_lives := setKey acc.player_lives e.1 ((lookupKey acc.player_lives e.1).getD 0 - 1),
        zombies := acc.zombies.filter (fun z => z ≠ e.2) }
    if (lookupKey acc1.player_lives e.1).getD 0 ≤ 0 then remove_player acc1 e.1 else acc1
  else acc

/-- `Game._check_zombie_collision`: iterate over a snapshot of the
position table, then set game-over if no players remain. -/
def check_zombie_collision (g : GameState) : GameState :=
  let g1 := g.player_positions.foldl collideOne g
  if g1.player_positions.isEmpty then { g1 with game_over := true } else g1

/-- `Game.can_move`. -/
def can_move (g : GameState) (uid dx dy : Int) : Bool :=
  match lookupKey g.player_positions uid with
  | none => false
  | some p =>
    let nx := p.1 + dx
    let ny := p.2 + dy
    if nx < 0 ∨ g.width ≤ nx ∨ ny < 0 ∨ g.height ≤ ny then false
    else if (nx, ny) ∈ g.obstacles then false
    else if ∃ e ∈ g.player_positions, e.1 ≠ uid ∧ e.2 = (nx, ny) then false
    else true

/-- `Game._can_zombie_move`. -/
def can_zombie_move (g : GameState) (zp : Int × Int) (dx dy : Int) : Bool :=
  let nx := zp.1 + dx
  let ny := zp.2 + dy
  if nx < 0 ∨ g.width ≤ nx ∨ ny < 0 ∨ g.height ≤ ny then false
  else if (nx, ny) ∈ g.obstacles then false
  else true

/-- Manhattan distance (`abs(dx) + abs(dy)`). -/
def manhattan (a b : Int × Int) : Nat :=
  (b.1 - a.1).natAbs + (b.2 - a.2).natAbs

/-- Nearest-player scan of `_move_zombies`: first strict improvement wins. -/
def nearestPlayerPos (zp : Int × Int) (ps : List (Int × Int)) : Option (Int × Int) :=
  ps.foldl (fun best p =>
    match best with
    | none => some p
    | some b => if manhattan zp p < manhattan zp b then some p else best) none

/-- One zombie step of `Game._move_zombies`.  The weighted draw over the
candidate moves (weights 3 / 1 / 0.5, all positive) is modelled by an
arbitrary index `choice` into the candidate list. -/
def zombieStep (g : GameState) (zp : Int × Int) (choice : Nat) : Int × Int :=
  match nearestPlayerPos zp (g.player_positions.map (·.2)) with
  | none => zp
  | some _ =>
    let cands := ([((0 : Int), (-1 : Int)), (0, 1), (-1, 0), (1, 0)]).filter
      (fun d => can_zombie_move g zp d.1 d.2)
    match cands with
    | [] => zp
    | c :: cs =>
      let d := (c :: cs).getD (choice % (c :: cs).length) c
      (zp.1 + d.1, zp.2 + d.2)

/-- `Game._move_zombies` with one choice per zombie (by zombie index). -/
def move_zombies (g : GameState) (choices : List Nat) : GameState :=
  if g.player_positions.isEmpty then g
  else { g with zombies := g.zombies.enum.map (fun zi => zombieStep g zi.2 (choices.getD zi.1 0)) }

/-- Item pickup on arrival (`move` lines 432-437). -/
def applyItemPickup (g : GameState) (uid : Int) (newPos : Int × Int) : GameState :=
  match lookupKey g.items newPos with
  | none => g
  | some t =>
    let inv := (lookupKey g.collected_items uid).getD (zeroInventory g.item_types)
    { g with
      collected_items := setKey g.collected_items uid (bumpItem inv t),
      items := dropKey g.items newPos }

/-- Portal / winner check on arrival (`move` lines 439-448). -/
def applyPortal (g : GameState) (uid : Int) (newPos : Int × Int) : GameState :=
  if g.portal_pos = some newPos ∧ can_reach_portal g uid = true then
    match g.winner with
    | none =>
      { g with
        winner := some uid,
        level_complete := true,
        player_wins := setKey g.player_wins uid ((lookupKey g.player_wins uid).getD 0 + 1) }
    | some _ => g
  else g

/-- Post-arrival phase of `Game.move` (lines 450-462): collision check,
AI-tick counter increment, and — on reaching the interval — hostile AI
movement, counter reset, and a second collision check. -/
def moveTicks (h : GameState) (choices : List Nat) : GameState :=
  let g4 := check_zombie_collision h
  let g5 := { g4 with zombie_move_counter := g4.zombie_move_counter + 1 }
  if ZOMBIE_MOVE_INTERVAL ≤ g5.zombie_move_counter then
    let g6 := move_zombies g5 choices
    let g7 := { g6 with zombie_move_counter := 0 }
    check_zombie_collision g7
  else g5

/-- `Game.move`.  `choices` feeds the zombie AI when the tick interval
is reached. -/
def move (g : GameState) (uid dx dy : Int) (choices : List Nat) : Bool × GameState :=
  if g.game_over then (false, g)
  else match lookupKey g.player_positions uid with
  | none => (false, g)
  | some p =>
    if can_move g uid dx dy then
      let newPos := (p.1 + dx, p.2 + dy)
      (true, moveTicks (applyPortal (applyItemPickup
        { g with player_positions := setKey g.player_positions uid newPos }
        uid newPos) uid newPos) choices)
    else (false, g)

/-- The random draws consumed by `Game.__init__`. -/
structure InitRand where
  required : Nat
  obstacleAttempts : List (Int × Int)
  itemSurplus : Nat
  itemAttempts : List ((Int × Int) × String)
  portalAttempts : List (Int × Int)
  zombieWanted : Nat
  zombieAttempts : List (Int × Int)
  spawnAttempts : List (Int × Int)

/-- `Game.__init__` for the multiplayer game: field sizes from the level
table, generators in source order (items, portal, optional first player,
zombies). -/
def initGame (level : Int) (lives : Option Int) (item_types : List String)
    (first_player : Option Int) (emojisList : List String) (r : InitRand) : GameState :=
  let cfg := levelConfig level
  let g0 : GameState := {
    width := cfg.width, height := cfg.height,
    obstacles := generate_obstacles cfg.obstacle_count r.obstacleAttempts [],
    item_types := item_types,
    required_items_count := r.required,
    player_emojis_list := if emojisList.isEmpty then DEFAULT_PLAYER_EMOJIS else emojisList,
    level := level,
    players := [], player_positions := [], collected_items := [], player_lives := [],
    player_emojis := [], player_wins := [], winner := none,
    items := [], portal_pos := none, level_complete := false,
    zombies := [], zombie_move_counter := 0, game_over := false }
  let g1 := { g0 with items := generate_items g0 (r.required + r.itemSurplus) r.itemAttempts }
  let g2 := { g1 with portal_pos := generate_portal g1 r.portalAttempts }
  let g3 := match first_player with
            | none => g2
            | some uid => (add_player g2 uid lives r.spawnAttempts).2
  { g3 with zombies := generate_zombies g3 r.zombieWanted r.zombieAttempts }

/-- Per-player carry-over loop body of `Game.create_next_level`
(lines 546-556): copy emoji, lives, wins; reset inventory; append to
roster.  The source indexes the previous tables directly (roster members
always have entries); the `getD` models exactly that defined case. -/
def carryPlayer (prev : GameState) (g : GameState) (uid : Int) : GameState :=
  { g with
    player_emojis := setKey g.player_emojis uid ((lookupKey prev.player_emojis uid).getD ""),
    player_lives := setKey g.player_lives uid ((lookupKey prev.player_lives uid).getD 0),
    player_wins := setKey g.player_wins uid ((lookupKey prev.player_wins uid).getD 0),
    collected_items := setKey g.collected_items uid (zeroInventory g.item_types),
    players := g.players ++ [uid] }

/-- Sequential spawn pass of `Game.create_next_level` (lines 563-567):
players without a free cell are silently skipped. -/
def assignSpawns : GameState → List Int → List (List (Int × Int)) → List (Int × Int) → GameState
  | g, [], _, _ => g
  | g, uid :: rest, attss, exclude =>
    match generate_start_position g (attss.headD []) exclude with
    | none => assignSpawns g rest attss.tail exclude
    | some pos =>
      assignSpawns { g with player_positions := setKey g.player_positions uid pos }
        rest attss.tail (exclude ++ [pos])

/-- The random draws consumed by `Game.create_next_level`. -/
structure NextRand where
  init : InitRand
  spawnAttemptss : List (List (Int × Int))
  zombieWanted : Nat
  zombieAttempts : List (Int × Int)

/-- The constructor call plus the carry-over loop of
`Game.create_next_level` (lines 536-556). -/
def nextLevelBase (prev : GameState) (r : NextRand) : GameState :=
  prev.players.foldl (carryPlayer prev)
    (initGame (prev.level + 1) none prev.item_types none prev.player_emojis_list r.init)

/-- The spawn-pass exclusion set of `Game.create_next_level`
(lines 559-561): the new session's items and portal. -/
def nextLevelExclusions (g1 : GameState) : List (Int × Int) :=
  g1.items.map (·.1) ++ (match g1.portal_pos with | some p => [p] | none => [])

/-- `Game.create_next_level`. -/
def create_next_level (prev : GameState) (r : NextRand) : GameState :=
  let g1 := nextLevelBase prev r
  let g2 := assignSpawns g1 g1.players r.spawnAttemptss (nextLevelExclusions g1)
  let g3 := { g2 with
    level_complete := false, winner := none, game_over := false, zombie_move_counter := 0 }
  { g3 with zombies := generate_zombies g3 r.zombieWanted r.zombieAttempts }

/-! ## Basic lemmas on the association-list and placement helpers -/

theorem lookupKey_setKey_self {α β : Type} [DecidableEq α] (l : List (α × β)) (k : α) (v : β) :
    lookupKey (setKey l k v) k = some v := by
  induction l with
  | nil => simp [setKey, lookupKey]
  | cons e t ih =>
    by_cases h : e.1 = k
    · simp [setKey, lookupKey, h]
    · simp [setKey, lookupKey, h, ih]

theorem lookupKey_setKey_ne {α β : Type} [DecidableEq α] (l : List (α × β)) (k k' : α) (v : β)
    (h : k' ≠ k) : lookupKey (setKey l k v) k' = lookupKey l k' := by
  induction l with
  | nil => simp [setKey, lookupKey, Ne.symm h]
  | cons e t ih =>
    by_cases he : e.1 = k
    · simp [setKey, lookupKey, he, Ne.symm h]
    · simp only [setKey, he, if_false, lookupKey]
      by_cases he' : e.1 = k' <;> simp [he', ih]

theorem lookupKey_dropKey_self {α β : Type} [DecidableEq α] (l : List (α × β)) (k : α) :
    lookupKey (dropKey l k) k = none := by
  induction l with
  | nil => simp [dropKey, lookupKey]
  | cons e t ih =>
    by_cases he : e.1 = k
    · simpa [dropKey, he] using ih
    · simpa [dropKey, lookupKey, he] using ih

theorem lookupKey_dropKey_ne {α β : Type} [DecidableEq α] (l : List (α × β)) (k k' : α)
    (h : k' ≠ k) : lookupKey (dropKey l k) k' = lookupKey l k' := by
  induction l with
  | nil => rfl
  | cons e t ih =>
    by_cases he : e.1 = k
    · have hd : dropKey (e :: t) k = dropKey t k := by
        simp [dropKey, List.filter_cons, he]
      have he' : e.1 ≠ k' := by
        intro hh
        exact h (by rw [← hh]; exact he)
      rw [hd, ih]
      simp [lookupKey, he']
    · have hd : dropKey (e :: t) k = e :: dropKey t k := by
        simp [dropKey, List.filter_cons, he]
      rw [hd]
      simp only [lookupKey]
      by_cases he' : e.1 = k' <;> simp [he', ih]

theorem lookupKey_some_mem {α β : Type} [DecidableEq α] {l : List (α × β)} {k : α} {v : β}
    (h : lookupKey l k = some v) : (k, v) ∈ l := by
  induction l with
  | nil => simp [lookupKey] at h
  | cons e t ih =>
    by_cases he : e.1 = k
    · simp only [lookupKey, he, if_true, Option.some.injEq] at h
      have heq : e = (k, v) := by
        obtain ⟨e1, e2⟩ := e
        simp only at he h
        rw [he, h]
      rw [← heq]
      exact List.mem_cons_self e t
    · simp only [lookupKey, he, if_false] at h
      exact List.mem_cons_of_mem _ (ih h)

theorem lookupKey_eq_none {α β : Type} [DecidableEq α] {l : List (α × β)} {k : α}
    (h : k ∉ l.map Prod.fst) : lookupKey l k = none := by
  induction l with
  | nil => simp [lookupKey]
  | cons e t ih =>
    simp only [List.map_cons, List.mem_cons] at h
    push_neg at h
    simp only [lookupKey, Ne.symm h.1, if_false]
    exact ih h.2

theorem lookupKey_of_mem_nodup {α β : Type} [DecidableEq α] {l : List (α × β)} {k : α} {v : β}
    (hmem : (k, v) ∈ l) (hnd : (l.map Prod.fst).Nodup) : lookupKey l k = some v := by
  induction l with
  | nil => simp at hmem
  | cons e t ih =>
    simp only [List.map_cons, List.nodup_cons] at hnd
    rcases List.mem_cons.mp hmem with h | h
    · rw [← h]
      simp [lookupKey]
    · have hk : e.1 ≠ k := by
        intro he
        exact hnd.1 (he ▸ (List.mem_map.mpr ⟨(k, v), h, rfl⟩))
      simp only [lookupKey, hk, if_false]
      exact ih h hnd.2

theorem mem_scanPositions (w h : Int) (p : Int × Int)
    (h1 : 0 ≤ p.1) (h2 : p.1 < w) (h3 : 0 ≤ p.2) (h4 : p.2 < h) :
    p ∈ scanPositions w h := by
  obtain ⟨x, y⟩ := p
  simp only at h1 h2 h3 h4
  have hxw : x.toNat < w.toNat := by omega
  have hyh : y.toNat < h.toNat := by omega
  have hinner : ((x.toNat : Int), ((y.toNat : Int))) ∈
      (List.range w.toNat).map (fun a : Nat => ((a : Int), ((y.toNat : Int)))) :=
    List.mem_map.mpr ⟨x.toNat, List.mem_range.mpr hxw, rfl⟩
  have houter : ((x.toNat : Int), ((y.toNat : Int))) ∈ scanPositions w h :=
    List.mem_flatMap.mpr ⟨y.toNat, List.mem_range.mpr hyh, hinner⟩
  have heq : (((x.toNat : Int)), ((y.toNat : Int))) = (x, y) := by
    simp only [Prod.mk.injEq]
    constructor <;> omega
  exact heq ▸ houter

theorem pickFree_some {w h : Int} {atts blocked : List (Int × Int)} {p : Int × Int}
    (hp : pickFree w h atts blocked = some p) : p ∉ blocked := by
  unfold pickFree at hp
  cases hfind : atts.find? (fun q => decide (q ∉ blocked)) with
  | some q =>
    rw [hfind] at hp
    cases hp
    simpa using List.find?_some hfind
  | none =>
    rw [hfind] at hp
    simpa using List.find?_some hp

theorem pickFree_none {w h : Int} {atts blocked : List (Int × Int)}
    (hp : pickFree w h atts blocked = none) :
    ∀ p ∈ scanPositions w h, p ∈ blocked := by
  intro p hmem
  unfold pickFree at hp
  cases hfind : atts.find? (fun q => decide (q ∉ blocked)) with
  | some q => rw [hfind] at hp; cases hp
  | none =>
    rw [hfind] at hp
    have := List.find?_eq_none.mp hp p hmem
    simpa using this

/-! ## Concrete game runs (used as witnesses and counterexamples)

`gB` is a level-1 session reached by the source's own construction path:
`Game(level=1, first_player_id=1)` with concrete outcomes for every
random draw, all inside the ranges the source draws from
(`required = 2 ∈ [2,3]`, item surplus `2 ∈ [2,4]`, one zombie
`∈ [0,1]`). -/

/-- The default item catalog keys (`ITEM_TYPES` in `config.py`). -/
def ITEM_TYPES : List String := ["diamond", "wood", "stone", "coal"]

/-- Concrete random-draw outcomes for a level-1 session. -/
def rB : InitRand :=
  ⟨2, [(0, 4), (1, 4)], 2,
   [((2, 0), "wood"), ((3, 0), "wood"), ((2, 1), "stone"), ((3, 1), "stone")],
   [(4, 0)], 1, [(5, 0)], [(1, 0)]⟩

/-- A level-1 session with player 1 at (1,0), obstacles at (0,4) and
(1,4), items at (2,0),(3,0),(2,1),(3,1), portal (4,0), zombie (5,0). -/
def gB : GameState := initGame 1 (some 3) ITEM_TYPES (some 1) [] rB

/-! ## C8: `move` performs no direction-catalog validation -/

/-- The acceptance bit of `move` depends only on the game-over flag,
presence in the position table, and `can_move`. -/
theorem move_fst_char (g : GameState) (uid dx dy : Int) (ch : List Nat) :
    (move g uid dx dy ch).1 =
      (!g.game_over && (lookupKey g.player_positions uid).isSome && can_move g uid dx dy) := by
  unfold move
  cases hgo : g.game_over with
  | true => simp
  | false =>
    simp only [Bool.not_false, Bool.true_and, if_false, Bool.false_eq_true]
    cases hl : lookupKey g.player_positions uid with
    | none => simp
    | some p =>
      simp only [Option.isSome_some, Bool.true_and]
      cases hcm : can_move g uid dx dy with
      | false => simp
      | true => simp only [if_true]

/-- C8 (amended): `move(player_id, dx, dy)` applies the same
bounds/obstacle/occupancy validation to every `(dx, dy)` whatsoever —
it contains no check that the direction belongs to the catalog
{(0,-1),(0,1),(-1,0),(1,0)}.  Acceptance is exactly: game not over,
player present in the position table, and `can_move` succeeds. -/
theorem C8_move_accepts_any_direction (g : GameState) (uid dx dy : Int) (ch : List Nat) :
    (move g uid dx dy ch).1 =
      (!g.game_over && (lookupKey g.player_positions uid).isSome && can_move g uid dx dy) :=
  move_fst_char g uid dx dy ch

/-- C8 (counterexample to the claim as stated): in the reachable session
`gB`, the out-of-catalog direction (0,0) is accepted — `move` returns
true and mutates the session (the AI-tick counter advances) — and the
out-of-catalog direction (2,0) is accepted as well. -/
theorem C8_counterexample :
    (move gB 1 0 0 []).1 = true ∧ (move gB 1 0 0 []).2 ≠ gB ∧
      (move gB 1 2 0 []).1 = true := by decide

/-! ## C6: placement disjointness -/

/-- C6 (counterexample to the claim as stated): in the reachable session
`gB` a second player joining via `add_player` can spawn on the hostile's
cell (5,0): the join succeeds, the player is placed at (5,0), and the
zombie is still there — `add_player`'s exclusion set omits hostiles. -/
theorem C6_counterexample :
    (add_player gB 2 none [(5, 0)]).1 = true ∧
      lookupKey (add_player gB 2 none [(5, 0)]).2.player_positions 2 = some (5, 0) ∧
      (5, 0) ∈ gB.zombies ∧ (add_player gB 2 none [(5, 0)]).2.zombies = gB.zombies := by
  decide

/-! ## Spawn-placement lemmas -/

theorem generate_start_position_some {g : GameState} {atts exclude : List (Int × Int)}
    {p : Int × Int} (h : generate_start_position g atts exclude = some p) :
    p ∉ g.obstacles ∧ p ∉ exclude := by
  have hp : pickFree g.width g.height atts (g.obstacles ++ exclude) = some p := h
  have := pickFree_some hp
  simp only [List.mem_append] at this
  push_neg at this
  exact this

theorem generate_start_position_none {g : GameState} {atts exclude : List (Int × Int)}
    (h : generate_start_position g atts exclude = none) :
    ∀ q, inBounds g q → q ∈ g.obstacles ∨ q ∈ exclude := by
  intro q hq
  have hp : pickFree g.width g.height atts (g.obstacles ++ exclude) = none := h
  have := pickFree_none hp q (mem_scanPositions _ _ q hq.1 hq.2.1 hq.2.2.1 hq.2.2.2)
  exact List.mem_append.mp this

/-! ## C5: `add_player` -/

/-- C5: `add_player(id, lives)` returns false and leaves the session
unchanged when the id already has a position or no free spawn cell
exists (free = outside obstacles, other players' positions, items,
portal); otherwise it succeeds, places the player outside the exclusion
set, assigns the palette glyph indexed by roster size modulo palette
size, initializes lives and an all-zero inventory, defaults the win
record to zero only when no prior record exists, and appends the id to
the roster. -/
theorem C5_add_player (g : GameState) (uid : Int) (lv : Option Int) (atts : List (Int × Int)) :
    ((lookupKey g.player_positions uid).isSome = true → add_player g uid lv atts = (false, g)) ∧
    (generate_start_position g atts (spawnExclusions g) = none →
      add_player g uid lv atts = (false, g) ∧
      ∀ q, inBounds g q → q ∈ g.obstacles ∨ q ∈ spawnExclusions g) ∧
    (∀ pos, lookupKey g.player_positions uid = none →
      generate_start_position g atts (spawnExclusions g) = some pos →
      (add_player g uid lv atts).1 = true ∧
      lookupKey (add_player g uid lv atts).2.player_positions uid = some pos ∧
      pos ∉ g.obstacles ∧ pos ∉ g.player_positions.map (·.2) ∧
      pos ∉ g.items.map (·.1) ∧ g.portal_pos ≠ some pos ∧
      lookupKey (add_player g uid lv atts).2.player_emojis uid =
        some (g.player_emojis_list.getD (g.players.length % g.player_emojis_list.length) "") ∧
      lookupKey (add_player g uid lv atts).2.player_lives uid = some (lv.getD PLAYER_LIVES) ∧
      lookupKey (add_player g uid lv atts).2.collected_items uid =
        some (zeroInventory g.item_types) ∧
      (lookupKey g.player_wins uid = none →
        lookupKey (add_player g uid lv atts).2.player_wins uid = some 0) ∧
      (∀ w, lookupKey g.player_wins uid = some w →
        lookupKey (add_player g uid lv atts).2.player_wins uid = some w) ∧
      (add_player g uid lv atts).2.players = g.players ++ [uid]) := by
  refine ⟨?_, ?_, ?_⟩
  · intro h
    simp [add_player, h]
  · intro h
    refine ⟨?_, generate_start_position_none h⟩
    simp only [add_player, h]
    split
    · rfl
    · rfl
  · intro pos hnone hsome
    have hiss : (lookupKey g.player_positions uid).isSome = false := by
      rw [hnone]; rfl
    have hfree := generate_start_position_some hsome
    have hnobs : pos ∉ g.obstacles := hfree.1
    have hnex := hfree.2
    simp only [spawnExclusions, List.mem_append] at hnex
    push_neg at hnex
    have hportal : g.portal_pos ≠ some pos := by
      intro hp
      apply hnex.2
      rw [hp]
      simp
    simp only [add_player, hiss, Bool.false_eq_true, if_false, hsome]
    refine ⟨trivial, lookupKey_setKey_self _ _ _, hnobs, hnex.1.1, hnex.1.2, hportal,
      lookupKey_setKey_self _ _ _, lookupKey_setKey_self _ _ _, lookupKey_setKey_self _ _ _,
      ?_, ?_, trivial⟩
    · intro hw
      simp only [hw, Option.isSome_none, Bool.false_eq_true, if_false]
      exact lookupKey_setKey_self _ _ _
    · intro w hw
      simp only [hw, Option.isSome_some, if_true]

/-- A degenerate 1×1 session whose single cell is an obstacle: every
spawn draw is exhausted. -/
def gFull : GameState :=
  ⟨1, 1, [(0, 0)], ITEM_TYPES, 1, DEFAULT_PLAYER_EMOJIS, 1,
   [], [], [], [], [], [], none, [], none, false, [], 0, false⟩

theorem C5_add_player_witness :
    (add_player gB 1 none [] = (false, gB)) ∧
    (add_player gFull 5 none [] = (false, gFull)) ∧
    ((add_player gB 2 none [(0, 0)]).1 = true ∧
      lookupKey (add_player gB 2 none [(0, 0)]).2.player_positions 2 = some (0, 0)) :=
  ⟨(C5_add_player gB 1 none []).1 (by decide),
   ((C5_add_player gFull 5 none []).2.1 (by decide)).1,
   ⟨((C5_add_player gB 2 none [(0, 0)]).2.2 (0, 0) (by decide) (by decide)).1,
    ((C5_add_player gB 2 none [(0, 0)]).2.2 (0, 0) (by decide) (by decide)).2.1⟩⟩

/-! ## Generator placement lemmas -/

theorem mem_setKey {α β : Type} [DecidableEq α] {l : List (α × β)} {k : α} {v : β} {e : α × β}
    (h : e ∈ setKey l k v) : e ∈ l ∨ e = (k, v) := by
  induction l with
  | nil => simpa [setKey] using h
  | cons a t ih =>
    by_cases ha : a.1 = k
    · simp only [setKey, ha, if_true, List.mem_cons] at h
      rcases h with h | h
      · right; exact h
      · left; exact List.mem_cons_of_mem _ h
    · simp only [setKey, ha, if_false, List.mem_cons] at h
      rcases h with h | h
      · left; exact h ▸ List.mem_cons_self a t
      · rcases ih h with h' | h'
        · left; exact List.mem_cons_of_mem _ h'
        · right; exact h'

theorem generate_items_go_not_blocked (blocked : List (Int × Int)) (target : Nat) :
    ∀ (atts acc : List ((Int × Int) × String)),
      (∀ e ∈ acc, e.1 ∉ blocked) →
      ∀ e ∈ generate_items_go blocked target atts acc, e.1 ∉ blocked := by
  intro atts
  induction atts with
  | nil =>
    intro acc hacc e he
    exact hacc e he
  | cons a rest ih =>
    intro acc hacc e he
    simp only [generate_items_go] at he
    split at he
    · exact hacc e he
    · split at he
      · exact ih acc hacc e he
      · next hnot =>
        refine ih _ ?_ e he
        intro e' he'
        rcases mem_setKey he' with h | h
        · exact hacc e' h
        · rw [h]
          exact hnot

theorem generate_zombies_go_not_blocked (wanted : Nat) :
    ∀ (atts blocked acc : List (Int × Int)),
      ∀ z ∈ generate_zombies_go wanted atts blocked acc, z ∈ acc ∨ z ∉ blocked := by
  intro atts
  induction atts with
  | nil =>
    intro blocked acc z hz
    left
    exact hz
  | cons p rest ih =>
    intro blocked acc z hz
    simp only [generate_zombies_go] at hz
    split at hz
    · left; exact hz
    · split at hz
      · exact ih blocked acc z hz
      · next hnot =>
        rcases ih (p :: blocked) (acc ++ [p]) z hz with h | h
        · rcases List.mem_append.mp h with h' | h'
          · left; exact h'
          · right
            simp only [List.mem_singleton] at h'
            rw [h']
            exact hnot
        · right
          intro hb
          exact h (List.mem_cons_of_mem _ hb)

theorem add_player_accepted {g : GameState} {uid : Int} {lv : Option Int}
    {atts : List (Int × Int)} (h : (add_player g uid lv atts).1 = true) :
    ∃ pos, generate_start_position g atts (spawnExclusions g) = some pos ∧
      (add_player g uid lv atts).2.player_positions = setKey g.player_positions uid pos := by
  cases hs : (lookupKey g.player_positions uid).isSome with
  | true => simp [add_player, hs] at h
  | false =>
    cases hg : generate_start_position g atts (spawnExclusions g) with
    | none => simp [add_player, hs, hg] at h
    | some pos =>
      refine ⟨pos, rfl, ?_⟩
      simp [add_player, hs, hg]

/-! ## C6: pairwise disjointness of generated placements (amended) -/

/-- C6 (amended): every generator places outside everything placed
before it — items avoid obstacles and player positions; the portal
avoids obstacles, player positions and items; hostiles avoid obstacles,
player positions, items and the portal; and an `add_player` spawn
avoids obstacles, current player positions, items and the portal.  The
original claim fails only in that `add_player`'s exclusion set omits
hostile positions (see the counterexample): a joining player can spawn
on a hostile's cell. -/
theorem C6_placement_disjointness (g : GameState) (target wanted : Nat)
    (iatts : List ((Int × Int) × String)) (patts zatts satts : List (Int × Int))
    (uid : Int) (lv : Option Int) :
    (∀ e ∈ generate_items g target iatts,
       e.1 ∉ g.obstacles ∧ e.1 ∉ g.player_positions.map (·.2)) ∧
    (∀ q, generate_portal g patts = some q →
       q ∉ g.obstacles ∧ q ∉ g.player_positions.map (·.2) ∧ q ∉ g.items.map (·.1)) ∧
    (∀ z ∈ generate_zombies g wanted zatts,
       z ∉ g.obstacles ∧ z ∉ g.player_positions.map (·.2) ∧ z ∉ g.items.map (·.1) ∧
         g.portal_pos ≠ some z) ∧
    (∀ pos, (add_player g uid lv satts).1 = true →
       lookupKey (add_player g uid lv satts).2.player_positions uid = some pos →
       pos ∉ g.obstacles ∧ pos ∉ g.player_positions.map (·.2) ∧ pos ∉ g.items.map (·.1) ∧
         g.portal_pos ≠ some pos) := by
  refine ⟨?_, ?_, ?_, ?_⟩
  · intro e he
    have := generate_items_go_not_blocked
      (g.obstacles ++ g.player_positions.map (·.2)) target iatts [] (by simp) e he
    simp only [List.mem_append] at this
    push_neg at this
    exact this
  · intro q hq
    have := pickFree_some hq
    simp only [List.mem_append] at this
    push_neg at this
    exact ⟨this.1.1, this.1.2, this.2⟩
  · intro z hz
    rcases generate_zombies_go_not_blocked wanted zatts _ [] z hz with h | h
    · simp at h
    · simp only [List.mem_append] at h
      push_neg at h
      refine ⟨h.1.1.1, h.1.1.2, h.1.2, ?_⟩
      intro hp
      apply h.2
      rw [hp]
      simp
  · intro pos hacc hpos
    obtain ⟨pos0, hgen, hset⟩ := add_player_accepted hacc
    rw [hset, lookupKey_setKey_self] at hpos
    cases hpos
    have hfree := generate_start_position_some hgen
    have hnex := hfree.2
    simp only [spawnExclusions, List.mem_append] at hnex
    push_neg at hnex
    refine ⟨hfree.1, hnex.1.1, hnex.1.2, ?_⟩
    intro hp
    apply hnex.2
    rw [hp]
    simp

theorem C6_placement_disjointness_witness :
    (((0 : Int), (0 : Int)) ∉ gB.obstacles ∧
      ((0 : Int), (0 : Int)) ∉ gB.player_positions.map (·.2)) ∧
    (((0 : Int), (1 : Int)) ∉ gB.obstacles ∧
      ((0 : Int), (1 : Int)) ∉ gB.player_positions.map (·.2) ∧
      ((0 : Int), (1 : Int)) ∉ gB.items.map (·.1)) ∧
    (((0 : Int), (2 : Int)) ∉ gB.obstacles ∧
      ((0 : Int), (2 : Int)) ∉ gB.player_positions.map (·.2) ∧
      ((0 : Int), (2 : Int)) ∉ gB.items.map (·.1) ∧ gB.portal_pos ≠ some (0, 2)) ∧
    (((0 : Int), (0 : Int)) ∉ gB.obstacles ∧
      ((0 : Int), (0 : Int)) ∉ gB.player_positions.map (·.2) ∧
      ((0 : Int), (0 : Int)) ∉ gB.items.map (·.1) ∧ gB.portal_pos ≠ some (0, 0)) :=
  ⟨(C6_placement_disjointness gB 1 1 [((0, 0), "wood")] [(0, 1)] [(0, 2)] [(0, 0)] 2 none).1
      ((0, 0), "wood") (by decide),
   (C6_placement_disjointness gB 1 1 [((0, 0), "wood")] [(0, 1)] [(0, 2)] [(0, 0)] 2 none).2.1
      (0, 1) (by decide),
   (C6_placement_disjointness gB 1 1 [((0, 0), "wood")] [(0, 1)] [(0, 2)] [(0, 0)] 2 none).2.2.1
      (0, 2) (by decide),
   (C6_placement_disjointness gB 1 1 [((0, 0), "wood")] [(0, 1)] [(0, 2)] [(0, 0)] 2 none).2.2.2
      (0, 0) (by decide) (by decide)⟩

/-! ## Lemmas on the accepted-move pipeline -/

theorem applyItemPickup_positions (g : GameState) (uid : Int) (p : Int × Int) :
    (applyItemPickup g uid p).player_positions = g.player_positions := by
  unfold applyItemPickup
  split <;> rfl

theorem applyPortal_positions (g : GameState) (uid : Int) (p : Int × Int) :
    (applyPortal g uid p).player_positions = g.player_positions := by
  unfold applyPortal
  split
  · split <;> rfl
  · rfl

theorem move_zombies_positions (g : GameState) (ch : List Nat) :
    (move_zombies g ch).player_positions = g.player_positions := by
  unfold move_zombies
  split <;> rfl

theorem remove_player_positions_some {g : GameState} {uid k : Int} {q : Int × Int}
    (h : lookupKey (remove_player g k).player_positions uid = some q) :
    lookupKey g.player_positions uid = some q := by
  unfold remove_player at h
  split at h
  · by_cases hk : uid = k
    · rw [hk] at h
      rw [lookupKey_dropKey_self] at h
      cases h
    · rwa [lookupKey_dropKey_ne _ _ _ hk] at h
  · exact h

theorem collideOne_positions_some {acc : GameState} {e : Int × (Int × Int)} {uid : Int}
    {q : Int × Int} (h : lookupKey (collideOne acc e).player_positions uid = some q) :
    lookupKey acc.player_positions uid = some q := by
  simp only [collideOne] at h
  split at h
  · split at h
    · have h2 := remove_player_positions_some h
      exact h2
    · exact h
  · exact h

theorem foldl_collide_positions_some {uid : Int} {q : Int × Int} :
    ∀ (es : List (Int × (Int × Int))) (acc : GameState),
      lookupKey (es.foldl collideOne acc).player_positions uid = some q →
      lookupKey acc.player_positions uid = some q := by
  intro es
  induction es with
  | nil => intro acc h; exact h
  | cons e rest ih =>
    intro acc h
    exact collideOne_positions_some (ih (collideOne acc e) h)

theorem check_zombie_collision_positions_some {g : GameState} {uid : Int} {q : Int × Int}
    (h : lookupKey (check_zombie_collision g).player_positions uid = some q) :
    lookupKey g.player_positions uid = some q := by
  simp only [check_zombie_collision] at h
  split at h
  · exact foldl_collide_positions_some _ _ h
  · exact foldl_collide_positions_some _ _ h

theorem can_move_true {g : GameState} {uid dx dy : Int} {p : Int × Int}
    (hp : lookupKey g.player_positions uid = some p) (h : can_move g uid dx dy = true) :
    inBounds g (p.1 + dx, p.2 + dy) ∧ (p.1 + dx, p.2 + dy) ∉ g.obstacles ∧
      ¬ ∃ e ∈ g.player_positions, e.1 ≠ uid ∧ e.2 = (p.1 + dx, p.2 + dy) := by
  simp only [can_move, hp] at h
  by_cases h1 : (p.1 + dx < 0 ∨ g.width ≤ p.1 + dx ∨ p.2 + dy < 0 ∨ g.height ≤ p.2 + dy)
  · rw [if_pos h1] at h
    cases h
  · rw [if_neg h1] at h
    by_cases h2 : ((p.1 + dx, p.2 + dy) ∈ g.obstacles)
    · rw [if_pos h2] at h
      cases h
    · rw [if_neg h2] at h
      by_cases h3 : (∃ e ∈ g.player_positions, e.1 ≠ uid ∧ e.2 = (p.1 + dx, p.2 + dy))
      · rw [if_pos h3] at h
        cases h
      · push_neg at h1
        refine ⟨⟨by omega, by omega, by omega, by omega⟩, h2, h3⟩

theorem not_can_move_of_not_inBounds {g : GameState} {uid dx dy : Int} {p : Int × Int}
    (hp : lookupKey g.player_positions uid = some p)
    (hb : ¬ inBounds g (p.1 + dx, p.2 + dy)) : can_move g uid dx dy = false := by
  simp only [can_move, hp]
  rw [if_pos]
  unfold inBounds at hb
  simp only at hb
  omega

theorem not_can_move_of_obstacle {g : GameState} {uid dx dy : Int} {p : Int × Int}
    (hp : lookupKey g.player_positions uid = some p)
    (ho : (p.1 + dx, p.2 + dy) ∈ g.obstacles) : can_move g uid dx dy = false := by
  simp only [can_move, hp]
  by_cases h1 : (p.1 + dx < 0 ∨ g.width ≤ p.1 + dx ∨ p.2 + dy < 0 ∨ g.height ≤ p.2 + dy)
  · rw [if_pos h1]
  · rw [if_neg h1, if_pos ho]

theorem not_can_move_of_occupied {g : GameState} {uid dx dy : Int} {p : Int × Int}
    (hp : lookupKey g.player_positions uid = some p)
    (ho : ∃ e ∈ g.player_positions, e.1 ≠ uid ∧ e.2 = (p.1 + dx, p.2 + dy)) :
    can_move g uid dx dy = false := by
  simp only [can_move, hp]
  by_cases h1 : (p.1 + dx < 0 ∨ g.width ≤ p.1 + dx ∨ p.2 + dy < 0 ∨ g.height ≤ p.2 + dy)
  · rw [if_pos h1]
  · rw [if_neg h1]
    by_cases h2 : ((p.1 + dx, p.2 + dy) ∈ g.obstacles)
    · rw [if_pos h2]
    · rw [if_neg h2, if_pos ho]

theorem move_rejected_of_not_can_move {g : GameState} {uid dx dy : Int} {ch : List Nat}
    (h : can_move g uid dx dy = false) : move g uid dx dy ch = (false, g) := by
  unfold move
  cases hgo : g.game_over with
  | true => rfl
  | false =>
    simp only [Bool.false_eq_true, if_false]
    cases hl : lookupKey g.player_positions uid with
    | none => rfl
    | some p => rw [h]; rfl

theorem moveTicks_positions_some {h : GameState} {ch : List Nat} {uid : Int} {q : Int × Int}
    (hq : lookupKey (moveTicks h ch).player_positions uid = some q) :
    lookupKey h.player_positions uid = some q := by
  simp only [moveTicks] at hq
  split at hq
  · have h1 := check_zombie_collision_positions_some hq
    simp only [move_zombies_positions] at h1
    have h2 := check_zombie_collision_positions_some h1
    exact h2
  · have h1 := check_zombie_collision_positions_some hq
    exact h1

theorem move_accepted_target {g : GameState} {uid dx dy : Int} {ch : List Nat}
    (h : (move g uid dx dy ch).1 = true) :
    ∃ p, lookupKey g.player_positions uid = some p ∧ can_move g uid dx dy = true ∧
      ∀ q, lookupKey (move g uid dx dy ch).2.player_positions uid = some q →
        q = (p.1 + dx, p.2 + dy) := by
  cases hgo : g.game_over with
  | true => rw [move_fst_char, hgo] at h; cases h
  | false =>
    cases hl : lookupKey g.player_positions uid with
    | none => rw [move_fst_char, hgo, hl] at h; cases h
    | some p =>
      cases hcm : can_move g uid dx dy with
      | false => rw [move_fst_char, hgo, hl, hcm] at h; cases h
      | true =>
        refine ⟨p, rfl, rfl, ?_⟩
        intro q hq
        have hmv : (move g uid dx dy ch).2 =
            moveTicks (applyPortal (applyItemPickup
              { g with player_positions := setKey g.player_positions uid (p.1 + dx, p.2 + dy) }
              uid (p.1 + dx, p.2 + dy)) uid (p.1 + dx, p.2 + dy)) ch := by
          simp only [move, hgo, Bool.false_eq_true, if_false, hl, hcm, if_true]
        rw [hmv] at hq
        have h1 := moveTicks_positions_some hq
        rw [applyPortal_positions, applyItemPickup_positions] at h1
        have h2 : lookupKey (setKey g.player_positions uid (p.1 + dx, p.2 + dy)) uid =
            some q := h1
        rw [lookupKey_setKey_self] at h2
        cases h2
        rfl

/-! ## C1: move validation and rejection purity -/

/-- C1: `move(player_id, dx, dy)` returns `(false, g)` — false, with the
session bit-for-bit unchanged, hence no player coordinate, inventory,
life count, item, hostile position, winner or flag is mutated — when the
game is over, the player has no position entry, the player is not on the
roster (given the invariant that every positioned player is on the
roster), the target cell is out of bounds, an obstacle, or occupied by a
different player; and every accepted move leaves the mover (if still
alive) on an in-bounds, non-obstacle cell. -/
theorem C1_move_validation (g : GameState) (uid dx dy : Int) (ch : List Nat) :
    (g.game_over = true → move g uid dx dy ch = (false, g)) ∧
    (lookupKey g.player_positions uid = none → move g uid dx dy ch = (false, g)) ∧
    (uid ∉ g.players → (∀ e ∈ g.player_positions, e.1 ∈ g.players) →
      move g uid dx dy ch = (false, g)) ∧
    (∀ p, lookupKey g.player_positions uid = some p →
      (¬ inBounds g (p.1 + dx, p.2 + dy) → move g uid dx dy ch = (false, g)) ∧
      ((p.1 + dx, p.2 + dy) ∈ g.obstacles → move g uid dx dy ch = (false, g)) ∧
      ((∃ e ∈ g.player_positions, e.1 ≠ uid ∧ e.2 = (p.1 + dx, p.2 + dy)) →
        move g uid dx dy ch = (false, g))) ∧
    (∀ q, (move g uid dx dy ch).1 = true →
      lookupKey (move g uid dx dy ch).2.player_positions uid = some q →
      inBounds g q ∧ q ∉ g.obstacles) := by
  refine ⟨?_, ?_, ?_, ?_, ?_⟩
  · intro h
    unfold move
    rw [h]
    rfl
  · intro h
    unfold move
    cases hgo : g.game_over with
    | true => rfl
    | false =>
      simp only [Bool.false_eq_true, if_false, h]
  · intro hroster hsub
    have hnone : lookupKey g.player_positions uid = none := by
      cases hl : lookupKey g.player_positions uid with
      | none => rfl
      | some p =>
        exact absurd (hsub (uid, p) (lookupKey_some_mem hl)) hroster
    unfold move
    cases hgo : g.game_over with
    | true => rfl
    | false =>
      simp only [Bool.false_eq_true, if_false, hnone]
  · intro p hp
    exact ⟨fun hb => move_rejected_of_not_can_move (not_can_move_of_not_inBounds hp hb),
      fun ho => move_rejected_of_not_can_move (not_can_move_of_obstacle hp ho),
      fun ho => move_rejected_of_not_can_move (not_can_move_of_occupied hp ho)⟩
  · intro q hacc hq
    obtain ⟨p, hp, hcm, htar⟩ := move_accepted_target hacc
    rw [htar q hq]
    have := can_move_true hp hcm
    exact ⟨this.1, this.2.1⟩

/-- A copy of `gB` with the game-over flag raised. -/
def gOver : GameState := { gB with game_over := true }

/-- A copy of `gB` with a second player at (2,2). -/
def gB2 : GameState := (add_player gB 2 none [(2, 2)]).2

theorem C1_move_validation_witness :
    (move gOver 1 1 0 [] = (false, gOver)) ∧
    (move gB 99 1 0 [] = (false, gB)) ∧
    (move gB 99 0 1 [] = (false, gB)) ∧
    (move gB 1 0 (-1) [] = (false, gB)) ∧
    (move gB 1 (-1) 4 [] = (false, gB)) ∧
    (move gB2 1 1 2 [] = (false, gB2)) ∧
    (inBounds gB ((2 : Int), (0 : Int)) ∧ ((2 : Int), (0 : Int)) ∉ gB.obstacles) :=
  ⟨(C1_move_validation gOver 1 1 0 []).1 (by decide),
   (C1_move_validation gB 99 1 0 []).2.1 (by decide),
   (C1_move_validation gB 99 0 1 []).2.2.1 (by decide) (by decide),
   ((C1_move_validation gB 1 0 (-1) []).2.2.2.1 (1, 0) (by decide)).1 (by decide),
   ((C1_move_validation gB 1 (-1) 4 []).2.2.2.1 (1, 0) (by decide)).2.1 (by decide),
   ((C1_move_validation gB2 1 1 2 []).2.2.2.1 (1, 0) (by decide)).2.2
     ⟨(2, (2, 2)), by decide, by decide, by decide⟩,
   (C1_move_validation gB 1 1 0 []).2.2.2.2 (2, 0) (by decide) (by decide)⟩

/-! ## Preservation of winner / level-complete / win counters -/

theorem remove_player_wins (g : GameState) (k : Int) :
    (remove_player g k).player_wins = g.player_wins := by
  unfold remove_player
  split <;> rfl

theorem collideOne_wins (acc : GameState) (e : Int × (Int × Int)) :
    (collideOne acc e).player_wins = acc.player_wins := by
  simp only [collideOne]
  split
  · split
    · rw [remove_player_wins]
    · rfl
  · rfl

theorem collideOne_winner (acc : GameState) (e : Int × (Int × Int)) :
    (collideOne acc e).winner = acc.winner := by
  simp only [collideOne]
  split
  · split
    · unfold remove_player
      split <;> rfl
    · rfl
  · rfl

theorem collideOne_complete (acc : GameState) (e : Int × (Int × Int)) :
    (collideOne acc e).level_complete = acc.level_complete := by
  simp only [collideOne]
  split
  · split
    · unfold remove_player
      split <;> rfl
    · rfl
  · rfl

theorem foldl_collide_wins :
    ∀ (es : List (Int × (Int × Int))) (acc : GameState),
      (es.foldl collideOne acc).player_wins = acc.player_wins := by
  intro es
  induction es with
  | nil => intro acc; rfl
  | cons e rest ih =>
    intro acc
    simp only [List.foldl_cons]
    rw [ih (collideOne acc e), collideOne_wins]

theorem foldl_collide_winner :
    ∀ (es : List (Int × (Int × Int))) (acc : GameState),
      (es.foldl collideOne acc).winner = acc.winner := by
  intro es
  induction es with
  | nil => intro acc; rfl
  | cons e rest ih =>
    intro acc
    simp only [List.foldl_cons]
    rw [ih (collideOne acc e), collideOne_winner]

theorem foldl_collide_complete :
    ∀ (es : List (Int × (Int × Int))) (acc : GameState),
      (es.foldl collideOne acc).level_complete = acc.level_complete := by
  intro es
  induction es with
  | nil => intro acc; rfl
  | cons e rest ih =>
    intro acc
    simp only [List.foldl_cons]
    rw [ih (collideOne acc e), collideOne_complete]

theorem check_zombie_collision_wins (g : GameState) :
    (check_zombie_collision g).player_wins = g.player_wins := by
  simp only [check_zombie_collision]
  split
  · exact foldl_collide_wins g.player_positions g
  · exact foldl_collide_wins g.player_positions g

theorem check_zombie_collision_winner (g : GameState) :
    (check_zombie_collision g).winner = g.winner := by
  simp only [check_zombie_collision]
  split
  · exact foldl_collide_winner g.player_positions g
  · exact foldl_collide_winner g.player_positions g

theorem check_zombie_collision_complete (g : GameState) :
    (check_zombie_collision g).level_complete = g.level_complete := by
  simp only [check_zombie_collision]
  split
  · exact foldl_collide_complete g.player_positions g
  · exact foldl_collide_complete g.player_positions g

theorem move_zombies_wins (g : GameState) (ch : List Nat) :
    (move_zombies g ch).player_wins = g.player_wins := by
  unfold move_zombies
  split <;> rfl

theorem move_zombies_winner (g : GameState) (ch : List Nat) :
    (move_zombies g ch).winner = g.winner := by
  unfold move_zombies
  split <;> rfl

theorem move_zombies_complete (g : GameState) (ch : List Nat) :
    (move_zombies g ch).level_complete = g.level_complete := by
  unfold move_zombies
  split <;> rfl

theorem moveTicks_wins (h0 : GameState) (ch : List Nat) :
    (moveTicks h0 ch).player_wins = h0.player_wins := by
  simp only [moveTicks]
  split
  · simp only [check_zombie_collision_wins, move_zombies_wins]
  · simp only [check_zombie_collision_wins]

theorem moveTicks_winner (h0 : GameState) (ch : List Nat) :
    (moveTicks h0 ch).winner = h0.winner := by
  simp only [moveTicks]
  split
  · simp only [check_zombie_collision_winner, move_zombies_winner]
  · simp only [check_zombie_collision_winner]

theorem moveTicks_complete (h0 : GameState) (ch : List Nat) :
    (moveTicks h0 ch).level_complete = h0.level_complete := by
  simp only [moveTicks]
  split
  · simp only [check_zombie_collision_complete, move_zombies_complete]
  · simp only [check_zombie_collision_complete]

theorem applyItemPickup_wins (g : GameState) (uid : Int) (p : Int × Int) :
    (applyItemPickup g uid p).player_wins = g.player_wins := by
  unfold applyItemPickup
  split <;> rfl

theorem applyItemPickup_winner (g : GameState) (uid : Int) (p : Int × Int) :
    (applyItemPickup g uid p).winner = g.winner := by
  unfold applyItemPickup
  split <;> rfl

theorem applyItemPickup_complete (g : GameState) (uid : Int) (p : Int × Int) :
    (applyItemPickup g uid p).level_complete = g.level_complete := by
  unfold applyItemPickup
  split <;> rfl

theorem applyItemPickup_no_item {g : GameState} {uid : Int} {p : Int × Int}
    (h : lookupKey g.items p = none) : applyItemPickup g uid p = g := by
  unfold applyItemPickup
  rw [h]

theorem move_rejected_eq {g : GameState} {uid dx dy : Int} {ch : List Nat}
    (h : (move g uid dx dy ch).1 = false) : move g uid dx dy ch = (false, g) := by
  cases hgo : g.game_over with
  | true => unfold move; rw [hgo]; rfl
  | false =>
    cases hl : lookupKey g.player_positions uid with
    | none =>
      unfold move
      rw [hgo]
      simp only [Bool.false_eq_true, if_false, hl]
    | some p =>
      cases hcm : can_move g uid dx dy with
      | false =>
        exact move_rejected_of_not_can_move hcm
      | true =>
        rw [move_fst_char, hgo, hl, hcm] at h
        cases h

/-! ## C2: portal arrival and winner assignment -/

theorem applyPortal_qualify {g : GameState} {uid : Int} {np : Int × Int}
    (hp : g.portal_pos = some np) (hr : can_reach_portal g uid = true) (hw : g.winner = none) :
    applyPortal g uid np =
      { g with
        winner := some uid,
        level_complete := true,
        player_wins := setKey g.player_wins uid ((lookupKey g.player_wins uid).getD 0 + 1) } := by
  unfold applyPortal
  rw [if_pos ⟨hp, hr⟩, hw]

theorem applyPortal_no_qualify {g : GameState} {uid : Int} {np : Int × Int}
    (h : ¬ (g.portal_pos = some np ∧ can_reach_portal g uid = true)) :
    applyPortal g uid np = g := by
  unfold applyPortal
  rw [if_neg h]

theorem applyPortal_already_winner {g : GameState} {uid : Int} {np : Int × Int} {w : Int}
    (hw : g.winner = some w) : applyPortal g uid np = g := by
  unfold applyPortal
  split
  · rw [hw]
  · rfl

/-- C2: when an accepted move lands on the portal cell (item-free by the
generation invariant; inventory and win tables hold entries for the
mover), the mover becomes winner, the level is marked complete and the
mover's win counter is bumped by exactly one, if and only if the mover's
inventory total meets the required-item threshold and no winner exists
yet; and once a winner is set, no later `move` call — by the winner or
any other player, qualifying or not — changes the winner, the
level-complete flag, or any win counter. -/
theorem C2_portal_winner (g : GameState) (uid dx dy : Int) (ch : List Nat) :
    (∀ p w0 inv, lookupKey g.player_positions uid = some p →
      g.portal_pos = some (p.1 + dx, p.2 + dy) →
      lookupKey g.items (p.1 + dx, p.2 + dy) = none →
      lookupKey g.collected_items uid = some inv →
      lookupKey g.player_wins uid = some w0 →
      (move g uid dx dy ch).1 = true →
      (((move g uid dx dy ch).2.winner = some uid ∧
        (move g uid dx dy ch).2.level_complete = true ∧
        lookupKey (move g uid dx dy ch).2.player_wins uid = some (w0 + 1)) ↔
       (g.required_items_count ≤ totalItems inv ∧ g.winner = none))) ∧
    (∀ w, g.winner = some w →
      (move g uid dx dy ch).2.winner = some w ∧
      (move g uid dx dy ch).2.level_complete = g.level_complete ∧
      (move g uid dx dy ch).2.player_wins = g.player_wins) := by
  constructor
  · intro p w0 inv hp hportal hitem hinv hw hacc
    have hgo : g.game_over = false := by
      cases hgo : g.game_over
      · rfl
      · rw [move_fst_char, hgo] at hacc
        cases hacc
    have hcm : can_move g uid dx dy = true := by
      rw [move_fst_char, hgo, hp] at hacc
      simpa using hacc
    set g1 : GameState :=
      { g with player_positions := setKey g.player_positions uid (p.1 + dx, p.2 + dy) } with hg1
    have hmv0 : (move g uid dx dy ch).2 =
        moveTicks (applyPortal (applyItemPickup
          { g with player_positions := setKey g.player_positions uid (p.1 + dx, p.2 + dy) }
          uid (p.1 + dx, p.2 + dy)) uid (p.1 + dx, p.2 + dy)) ch := by
      simp only [move, hgo, Bool.false_eq_true, if_false, hp, hcm, if_true]
    have hmv : (move g uid dx dy ch).2 =
        moveTicks (applyPortal (applyItemPickup g1 uid (p.1 + dx, p.2 + dy))
          uid (p.1 + dx, p.2 + dy)) ch := hmv0
    have hpick : applyItemPickup g1 uid (p.1 + dx, p.2 + dy) = g1 :=
      applyItemPickup_no_item (by exact hitem)
    rw [hpick] at hmv
    have hreach : can_reach_portal g1 uid =
        decide (g.required_items_count ≤ totalItems inv) := by
      simp only [can_reach_portal]
      rw [show g1.collected_items = g.collected_items from rfl, hinv]
    by_cases hwin : g.winner = none
    · by_cases hq : g.required_items_count ≤ totalItems inv
      · have hc1 : g1.portal_pos = some (p.1 + dx, p.2 + dy) := hportal
        have hc2 : can_reach_portal g1 uid = true := by
          rw [hreach]
          exact decide_eq_true hq
        have hc3 : g1.winner = none := hwin
        have hport := applyPortal_qualify hc1 hc2 hc3
        rw [hport] at hmv
        constructor
        · intro _
          exact ⟨hq, hwin⟩
        · intro _
          refine ⟨?_, ?_, ?_⟩
          · rw [hmv, moveTicks_winner]
          · rw [hmv, moveTicks_complete]
          · rw [hmv, moveTicks_wins]
            show lookupKey (setKey g1.player_wins uid
              ((lookupKey g1.player_wins uid).getD 0 + 1)) uid = some (w0 + 1)
            rw [show lookupKey g1.player_wins uid = some w0 from hw]
            simp only [Option.getD_some]
            exact lookupKey_setKey_self _ _ _
      · have hnq : ¬ (g1.portal_pos = some (p.1 + dx, p.2 + dy) ∧
            can_reach_portal g1 uid = true) := by
          intro hc
          apply hq
          have h2 := hc.2
          rw [hreach] at h2
          exact of_decide_eq_true h2
        have hport := applyPortal_no_qualify hnq
        rw [hport] at hmv
        have hwr : (move g uid dx dy ch).2.winner = none := by
          rw [hmv, moveTicks_winner]
          exact hwin
        constructor
        · intro hleft
          rw [hwr] at hleft
          cases hleft.1
        · intro hright
          exact absurd hright.1 hq
    · obtain ⟨w, hw'⟩ : ∃ w, g.winner = some w := by
        cases hwg : g.winner with
        | none => exact absurd hwg hwin
        | some w => exact ⟨w, rfl⟩
      have hw1 : g1.winner = some w := hw'
      have hport : applyPortal g1 uid (p.1 + dx, p.2 + dy) = g1 :=
        applyPortal_already_winner hw1
      rw [hport] at hmv
      constructor
      · intro hleft
        have hkeep : lookupKey (move g uid dx dy ch).2.player_wins uid = some w0 := by
          rw [hmv, moveTicks_wins]
          exact hw
        rw [hleft.2.2] at hkeep
        injection hkeep with hk
        omega
      · intro hright
        exact absurd hright.2 hwin
  · intro w hw
    cases hacc : (move g uid dx dy ch).1 with
    | false =>
      rw [move_rejected_eq hacc]
      exact ⟨hw, rfl, rfl⟩
    | true =>
      obtain ⟨p, hp, hcm, _⟩ := move_accepted_target hacc
      have hgo : g.game_over = false := by
        cases hgo : g.game_over
        · rfl
        · rw [move_fst_char, hgo] at hacc
          cases hacc
      set g1 : GameState :=
        { g with player_positions := setKey g.player_positions uid (p.1 + dx, p.2 + dy) } with hg1
      have hmv0 : (move g uid dx dy ch).2 =
          moveTicks (applyPortal (applyItemPickup
            { g with player_positions := setKey g.player_positions uid (p.1 + dx, p.2 + dy) }
            uid (p.1 + dx, p.2 + dy)) uid (p.1 + dx, p.2 + dy)) ch := by
        simp only [move, hgo, Bool.false_eq_true, if_false, hp, hcm, if_true]
      have hmv : (move g uid dx dy ch).2 =
          moveTicks (applyPortal (applyItemPickup g1 uid (p.1 + dx, p.2 + dy))
            uid (p.1 + dx, p.2 + dy)) ch := hmv0
      have hw2 : (applyItemPickup g1 uid (p.1 + dx, p.2 + dy)).winner = some w := by
        rw [applyItemPickup_winner]
        exact hw
      have hport : applyPortal (applyItemPickup g1 uid (p.1 + dx, p.2 + dy))
          uid (p.1 + dx, p.2 + dy) = applyItemPickup g1 uid (p.1 + dx, p.2 + dy) :=
        applyPortal_already_winner hw2
      rw [hport] at hmv
      refine ⟨?_, ?_, ?_⟩
      · rw [hmv, moveTicks_winner]
        exact hw2
      · rw [hmv, moveTicks_complete, applyItemPickup_complete]
      · rw [hmv, moveTicks_wins, applyItemPickup_wins]

/-- Concrete random-draw outcomes for a one-life level-1 run. -/
def r10 : InitRand :=
  ⟨2, [(0, 4), (1, 4)], 2,
   [((2, 0), "wood"), ((3, 0), "wood"), ((2, 1), "stone"), ((3, 1), "stone")],
   [(4, 0)], 1, [(5, 0)], [(1, 0)]⟩

/-- A level-1 session whose single player has one life (the per-server
lives setting allows a minimum of 1). -/
def g10 : GameState := initGame 1 (some 1) ITEM_TYPES (some 1) [] r10

/-- After player 1 moves right onto the first item. -/
def g10a : GameState := (move g10 1 1 0 []).2

/-- After player 1 moves right onto the second item; the AI tick fires
and the zombie steps from (5,0) to the portal cell (4,0). -/
def g10b : GameState := (move g10a 1 1 0 [1]).2

/-- `gB` with an externally recorded winner. -/
def gW : GameState := { gB with winner := some 9, level_complete := true }

theorem C2_portal_winner_witness :
    ((move g10b 1 1 0 []).2.winner = some 1 ∧
     (move g10b 1 1 0 []).2.level_complete = true ∧
     lookupKey (move g10b 1 1 0 []).2.player_wins 1 = some 1) ∧
    ((move gW 1 1 0 []).2.winner = some 9 ∧
     (move gW 1 1 0 []).2.level_complete = gW.level_complete ∧
     (move gW 1 1 0 []).2.player_wins = gW.player_wins) :=
  ⟨((C2_portal_winner g10b 1 1 0 []).1 (3, 0) 0
      [("diamond", 0), ("wood", 2), ("stone", 0), ("coal", 0)]
      (by decide) (by decide) (by decide) (by decide) (by decide) (by decide)).mpr
      ⟨by decide, by decide⟩,
   (C2_portal_winner gW 1 1 0 []).2 9 (by decide)⟩

/-! ## C10: level-complete and game-over can hold simultaneously -/

/-- C10: a reachable session state has the level-complete and game-over
flags set simultaneously.  In the one-life run `g10b` (reached from
`initGame`/`add_player` through two accepted moves), player 1's third
move steps onto the portal holding the required 2 items — they are
declared winner, the level is marked complete, and their win counter is
recorded — and in the same `move` call the hostile waiting on the portal
cell removes their last life, emptying the roster and raising game-over,
with the winner and win record still set. -/
theorem C10_complete_and_over :
    (move g10b 1 1 0 []).1 = true ∧
    (move g10b 1 1 0 []).2.level_complete = true ∧
    (move g10b 1 1 0 []).2.game_over = true ∧
    (move g10b 1 1 0 []).2.winner = some 1 ∧
    lookupKey (move g10b 1 1 0 []).2.player_wins 1 = some 1 ∧
    (move g10b 1 1 0 []).2.player_positions = [] := by decide

/-! ## Per-player analysis of hostile-collision resolution -/

theorem collideOne_preserve (uid : Int) (p : Int × Int) (acc : GameState)
    (e : Int × (Int × Int)) (hne : e.1 ≠ uid) (hnp : e.2 ≠ p) :
    lookupKey (collideOne acc e).player_positions uid = lookupKey acc.player_positions uid ∧
    lookupKey (collideOne acc e).player_lives uid = lookupKey acc.player_lives uid ∧
    lookupKey (collideOne acc e).collected_items uid = lookupKey acc.collected_items uid ∧
    (uid ∈ (collideOne acc e).players ↔ uid ∈ acc.players) ∧
    (acc.players.Nodup → (collideOne acc e).players.Nodup) ∧
    (p ∈ (collideOne acc e).zombies ↔ p ∈ acc.zombies) := by
  have huid : uid ≠ e.1 := Ne.symm hne
  have hp : p ≠ e.2 := Ne.symm hnp
  simp only [collideOne]
  split
  · split
    · unfold remove_player
      split
      · refine ⟨?_, ?_, ?_, ?_, ?_, ?_⟩
        · exact lookupKey_dropKey_ne _ _ _ huid
        · rw [lookupKey_dropKey_ne _ _ _ huid]
          exact lookupKey_setKey_ne _ _ _ _ huid
        · exact lookupKey_dropKey_ne _ _ _ huid
        · exact List.mem_erase_of_ne huid
        · intro hnd
          exact hnd.erase _
        · constructor
          · intro hz
            exact (List.mem_filter.mp hz).1
          · intro hz
            exact List.mem_filter.mpr ⟨hz, by simpa using hp⟩
      · refine ⟨rfl, lookupKey_setKey_ne _ _ _ _ huid, rfl, Iff.rfl, fun h => h, ?_⟩
        constructor
        · intro hz
          exact (List.mem_filter.mp hz).1
        · intro hz
          exact List.mem_filter.mpr ⟨hz, by simpa using hp⟩
    · refine ⟨rfl, lookupKey_setKey_ne _ _ _ _ huid, rfl, Iff.rfl, fun h => h, ?_⟩
      constructor
      · intro hz
        exact (List.mem_filter.mp hz).1
      · intro hz
        exact List.mem_filter.mpr ⟨hz, by simpa using hp⟩
  · exact ⟨rfl, rfl, rfl, Iff.rfl, fun h => h, Iff.rfl⟩

theorem foldl_collide_preserve (uid : Int) (p : Int × Int) :
    ∀ (es : List (Int × (Int × Int))) (acc : GameState),
      (∀ e ∈ es, e.1 ≠ uid ∧ e.2 ≠ p) →
      lookupKey (es.foldl collideOne acc).player_positions uid =
        lookupKey acc.player_positions uid ∧
      lookupKey (es.foldl collideOne acc).player_lives uid =
        lookupKey acc.player_lives uid ∧
      lookupKey (es.foldl collideOne acc).collected_items uid =
        lookupKey acc.collected_items uid ∧
      (uid ∈ (es.foldl collideOne acc).players ↔ uid ∈ acc.players) ∧
      (acc.players.Nodup → (es.foldl collideOne acc).players.Nodup) ∧
      (p ∈ (es.foldl collideOne acc).zombies ↔ p ∈ acc.zombies) := by
  intro es
  induction es with
  | nil =>
    intro acc _
    exact ⟨rfl, rfl, rfl, Iff.rfl, fun h => h, Iff.rfl⟩
  | cons e rest ih =>
    intro acc hall
    have he := hall e (List.mem_cons_self e rest)
    have h1 := collideOne_preserve uid p acc e he.1 he.2
    have h2 := ih (collideOne acc e) (fun e' he' => hall e' (List.mem_cons_of_mem _ he'))
    simp only [List.foldl_cons]
    refine ⟨h2.1.trans h1.1, h2.2.1.trans h1.2.1, h2.2.2.1.trans h1.2.2.1,
      h2.2.2.2.1.trans h1.2.2.2.1, ?_, h2.2.2.2.2.2.trans h1.2.2.2.2.2⟩
    intro hnd
    exact h2.2.2.2.2.1 (h1.2.2.2.2.1 hnd)

theorem check_zombie_collision_fields (g : GameState) :
    (check_zombie_collision g).player_positions =
      (g.player_positions.foldl collideOne g).player_positions ∧
    (check_zombie_collision g).player_lives =
      (g.player_positions.foldl collideOne g).player_lives ∧
    (check_zombie_collision g).collected_items =
      (g.player_positions.foldl collideOne g).collected_items ∧
    (check_zombie_collision g).players =
      (g.player_positions.foldl collideOne g).players ∧
    (check_zombie_collision g).zombies =
      (g.player_positions.foldl collideOne g).zombies := by
  simp only [check_zombie_collision]
  split
  · exact ⟨rfl, rfl, rfl, rfl, rfl⟩
  · exact ⟨rfl, rfl, rfl, rfl, rfl⟩

theorem check_zombie_collision_empty_game_over (g : GameState)
    (h : (check_zombie_collision g).player_positions = []) :
    (check_zombie_collision g).game_over = true := by
  revert h
  simp only [check_zombie_collision]
  split
  · intro _
    rfl
  · next hne =>
    intro h
    exact absurd (by rw [h]; rfl) hne

theorem nodup_middle_ne {α β : Type} (f : α → β) (l1 l2 : List α) (a : α)
    (h : ((l1 ++ a :: l2).map f).Nodup) :
    (∀ e ∈ l1, f e ≠ f a) ∧ (∀ e ∈ l2, f e ≠ f a) := by
  rw [List.map_append, List.map_cons, List.nodup_append] at h
  obtain ⟨h1, h2, hdisj⟩ := h
  rw [List.nodup_cons] at h2
  constructor
  · intro e he hf
    exact hdisj (List.mem_map_of_mem f he) (by rw [hf]; exact List.mem_cons_self _ _)
  · intro e he hf
    exact h2.1 (hf ▸ List.mem_map_of_mem f he)

theorem collideOne_miss (acc : GameState) (uid : Int) (p : Int × Int)
    (hz : p ∉ acc.zombies) : collideOne acc (uid, p) = acc := by
  simp only [collideOne]
  rw [if_neg (by exact hz)]

theorem collideOne_hit (acc : GameState) (uid : Int) (p : Int × Int) (l : Int)
    (hz : p ∈ acc.zombies) (hl : lookupKey acc.player_lives uid = some l)
    (hpos : lookupKey acc.player_positions uid = some p)
    (hnd : acc.players.Nodup) :
    p ∉ (collideOne acc (uid, p)).zombies ∧
    (collideOne acc (uid, p)).players.Nodup ∧
    (¬ l - 1 ≤ 0 → lookupKey (collideOne acc (uid, p)).player_lives uid = some (l - 1) ∧
      lookupKey (collideOne acc (uid, p)).player_positions uid = some p) ∧
    (l - 1 ≤ 0 → lookupKey (collideOne acc (uid, p)).player_positions uid = none ∧
      lookupKey (collideOne acc (uid, p)).player_lives uid = none ∧
      lookupKey (collideOne acc (uid, p)).collected_items uid = none ∧
      uid ∉ (collideOne acc (uid, p)).players) := by
  have hstep : collideOne acc (uid, p) =
      (if l - 1 ≤ 0 then
        remove_player
          { acc with
            player_lives := setKey acc.player_lives uid (l - 1),
            zombies := acc.zombies.filter (fun z => z ≠ p) }
          uid
      else
        { acc with
          player_lives := setKey acc.player_lives uid (l - 1),
          zombies := acc.zombies.filter (fun z => z ≠ p) }) := by
    simp only [collideOne, hz, if_true, hl, Option.getD_some, lookupKey_setKey_self]
  have hrm : remove_player
      { acc with
        player_lives := setKey acc.player_lives uid (l - 1),
        zombies := acc.zombies.filter (fun z => z ≠ p) }
      uid =
      { acc with
        player_positions := dropKey acc.player_positions uid,
        collected_items := dropKey acc.collected_items uid,
        player_lives := dropKey (setKey acc.player_lives uid (l - 1)) uid,
        player_emojis := dropKey acc.player_emojis uid,
        players := acc.players.erase uid,
        zombies := acc.zombies.filter (fun z => z ≠ p) } := by
    unfold remove_player
    rw [if_pos (by rw [show lookupKey
        ({ acc with
          player_lives := setKey acc.player_lives uid (l - 1),
          zombies := acc.zombies.filter (fun z => z ≠ p) } : GameState).player_positions uid =
        lookupKey acc.player_positions uid from rfl, hpos]; rfl)]
  rw [hstep]
  by_cases hc : l - 1 ≤ 0
  · rw [if_pos hc, hrm]
    refine ⟨?_, ?_, fun h => absurd hc h, fun _ => ?_⟩
    · intro hmem
      have := (List.mem_filter.mp hmem).2
      simp at this
    · exact hnd.erase _
    · refine ⟨lookupKey_dropKey_self _ _, lookupKey_dropKey_self _ _,
        lookupKey_dropKey_self _ _, ?_⟩
      intro hmem
      exact absurd ((hnd.mem_erase_iff).mp hmem).1 (by simp)
  · rw [if_neg hc]
    refine ⟨?_, hnd, fun _ => ⟨lookupKey_setKey_self _ _ _, hpos⟩, fun h => absurd h hc⟩
    intro hmem
    have := (List.mem_filter.mp hmem).2
    simp at this

/-- Per-player description of `Game._check_zombie_collision`: under the
session invariants (dict keys unique, player positions pairwise
distinct, roster duplicate-free, the player holds at least one life), a
player standing on a hostile loses exactly one life, every hostile on
that cell disappears, and the player is eliminated — removed from the
position, life and inventory tables and the roster — exactly when their
life count reached zero; a player not on a hostile keeps everything. -/
theorem check_collision_player_spec (g : GameState) (uid : Int) (p : Int × Int) (l : Int)
    (hkeys : (g.player_positions.map Prod.fst).Nodup)
    (hvals : (g.player_positions.map (·.2)).Nodup)
    (hpn : g.players.Nodup)
    (hmem : (uid, p) ∈ g.player_positions)
    (hl : lookupKey g.player_lives uid = some l) :
    (p ∈ g.zombies →
      p ∉ (check_zombie_collision g).zombies ∧
      (1 < l → lookupKey (check_zombie_collision g).player_lives uid = some (l - 1) ∧
        lookupKey (check_zombie_collision g).player_positions uid = some p) ∧
      (l = 1 → lookupKey (check_zombie_collision g).player_positions uid = none ∧
        lookupKey (check_zombie_collision g).player_lives uid = none ∧
        lookupKey (check_zombie_collision g).collected_items uid = none ∧
        uid ∉ (check_zombie_collision g).players)) ∧
    (p ∉ g.zombies →
      lookupKey (check_zombie_collision g).player_lives uid = some l ∧
      lookupKey (check_zombie_collision g).player_positions uid = some p) := by
  obtain ⟨l1, l2, hsplit⟩ := List.append_of_mem hmem
  have hk := nodup_middle_ne Prod.fst l1 l2 (uid, p) (by rw [← hsplit]; exact hkeys)
  have hv := nodup_middle_ne (·.2) l1 l2 (uid, p) (by rw [← hsplit]; exact hvals)
  have hffs := check_zombie_collision_fields g
  have hfold : g.player_positions.foldl collideOne g =
      l2.foldl collideOne (collideOne (l1.foldl collideOne g) (uid, p)) := by
    conv_lhs => rw [hsplit]
    rw [List.foldl_append, List.foldl_cons]
  have hAl : ∀ e ∈ l1, e.1 ≠ uid ∧ e.2 ≠ p := fun e he => ⟨hk.1 e he, hv.1 e he⟩
  have hBl : ∀ e ∈ l2, e.1 ≠ uid ∧ e.2 ≠ p := fun e he => ⟨hk.2 e he, hv.2 e he⟩
  have hA := foldl_collide_preserve uid p l1 g hAl
  have hApos : lookupKey (l1.foldl collideOne g).player_positions uid = some p := by
    rw [hA.1]
    exact lookupKey_of_mem_nodup hmem hkeys
  have hAlives : lookupKey (l1.foldl collideOne g).player_lives uid = some l := by
    rw [hA.2.1]
    exact hl
  have hAnd : (l1.foldl collideOne g).players.Nodup := hA.2.2.2.2.1 hpn
  constructor
  · intro hz
    have hAz : p ∈ (l1.foldl collideOne g).zombies := hA.2.2.2.2.2.mpr hz
    have hhit := collideOne_hit (l1.foldl collideOne g) uid p l hAz hAlives hApos hAnd
    have hC := foldl_collide_preserve uid p l2
      (collideOne (l1.foldl collideOne g) (uid, p)) hBl
    refine ⟨?_, ?_, ?_⟩
    · rw [hffs.2.2.2.2, hfold]
      intro hmemz
      exact hhit.1 (hC.2.2.2.2.2.mp hmemz)
    · intro hgt
      have hfacts := hhit.2.2.1 (by omega)
      constructor
      · rw [hffs.2.1, hfold, hC.2.1]
        exact hfacts.1
      · rw [hffs.1, hfold, hC.1]
        exact hfacts.2
    · intro heq
      have hfacts := hhit.2.2.2 (by omega)
      refine ⟨?_, ?_, ?_, ?_⟩
      · rw [hffs.1, hfold, hC.1]
        exact hfacts.1
      · rw [hffs.2.1, hfold, hC.2.1]
        exact hfacts.2.1
      · rw [hffs.2.2.1, hfold, hC.2.2.1]
        exact hfacts.2.2.1
      · rw [hffs.2.2.2.1, hfold]
        intro hmemp
        exact hfacts.2.2.2 (hC.2.2.2.1.mp hmemp)
  · intro hz
    have hAz : p ∉ (l1.foldl collideOne g).zombies := fun hcon => hz (hA.2.2.2.2.2.mp hcon)
    have hmiss := collideOne_miss (l1.foldl collideOne g) uid p hAz
    have hC := foldl_collide_preserve uid p l2
      (collideOne (l1.foldl collideOne g) (uid, p)) hBl
    constructor
    · rw [hffs.2.1, hfold, hC.2.1, hmiss]
      exact hAlives
    · rw [hffs.1, hfold, hC.1, hmiss]
      exact hApos

/-! ## C3: hostile-collision resolution -/

/-- C3: during hostile-collision resolution, under the session
invariants (unique table keys, pairwise-distinct player positions,
duplicate-free roster), a player sharing a cell with a hostile loses
exactly one life and every hostile on that cell is removed; if the life
count reaches zero the player is removed from the position, inventory
and life tables and the roster while the win record is retained; a
player on a hostile-free cell is untouched; and whenever resolution
leaves the roster empty the game-over flag is set. -/
theorem C3_collision_resolution (g : GameState) (uid : Int) (p : Int × Int) (l : Int)
    (hkeys : (g.player_positions.map Prod.fst).Nodup)
    (hvals : (g.player_positions.map (·.2)).Nodup)
    (hpn : g.players.Nodup)
    (hmem : (uid, p) ∈ g.player_positions)
    (hl : lookupKey g.player_lives uid = some l) :
    (p ∈ g.zombies →
      p ∉ (check_zombie_collision g).zombies ∧
      (1 < l → lookupKey (check_zombie_collision g).player_lives uid = some (l - 1) ∧
        lookupKey (check_zombie_collision g).player_positions uid = some p) ∧
      (l = 1 → lookupKey (check_zombie_collision g).player_positions uid = none ∧
        lookupKey (check_zombie_collision g).player_lives uid = none ∧
        lookupKey (check_zombie_collision g).collected_items uid = none ∧
        uid ∉ (check_zombie_collision g).players ∧
        lookupKey (check_zombie_collision g).player_wins uid = lookupKey g.player_wins uid)) ∧
    (p ∉ g.zombies →
      lookupKey (check_zombie_collision g).player_lives uid = some l ∧
      lookupKey (check_zombie_collision g).player_positions uid = some p) ∧
    ((check_zombie_collision g).player_positions = [] →
      (check_zombie_collision g).game_over = true) := by
  have hspec := check_collision_player_spec g uid p l hkeys hvals hpn hmem hl
  refine ⟨?_, hspec.2, check_zombie_collision_empty_game_over g⟩
  intro hz
  have h := hspec.1 hz
  refine ⟨h.1, h.2.1, ?_⟩
  intro he
  have h2 := h.2.2 he
  exact ⟨h2.1, h2.2.1, h2.2.2.1, h2.2.2.2, by rw [check_zombie_collision_wins]⟩

/-- `gB` with player 1 standing on the hostile's cell (5,0). -/
def gHit : GameState := { gB with player_positions := [(1, (5, 0))] }

/-- `gHit` with player 1 down to a single life. -/
def gHit1 : GameState := { gHit with player_lives := [(1, 1)] }

theorem C3_collision_resolution_witness :
    (((5 : Int), (0 : Int)) ∉ (check_zombie_collision gHit).zombies ∧
     lookupKey (check_zombie_collision gHit).player_lives 1 = some 2 ∧
     lookupKey (check_zombie_collision gHit).player_positions 1 = some (5, 0)) ∧
    (lookupKey (check_zombie_collision gHit1).player_positions 1 = none ∧
     lookupKey (check_zombie_collision gHit1).player_lives 1 = none ∧
     lookupKey (check_zombie_collision gHit1).collected_items 1 = none ∧
     (1 : Int) ∉ (check_zombie_collision gHit1).players ∧
     lookupKey (check_zombie_collision gHit1).player_wins 1 = lookupKey gHit1.player_wins 1) ∧
    ((check_zombie_collision gHit1).game_over = true) ∧
    (lookupKey (check_zombie_collision gB).player_lives 1 = some 3) :=
  ⟨⟨((C3_collision_resolution gHit 1 (5, 0) 3 (by decide) (by decide) (by decide) (by decide)
        (by decide)).1 (by decide)).1,
    (((C3_collision_resolution gHit 1 (5, 0) 3 (by decide) (by decide) (by decide) (by decide)
        (by decide)).1 (by decide)).2.1 (by decide)).1,
    (((C3_collision_resolution gHit 1 (5, 0) 3 (by decide) (by decide) (by decide) (by decide)
        (by decide)).1 (by decide)).2.1 (by decide)).2⟩,
   ((C3_collision_resolution gHit1 1 (5, 0) 1 (by decide) (by decide) (by decide) (by decide)
        (by decide)).1 (by decide)).2.2 (by decide),
   (C3_collision_resolution gHit1 1 (5, 0) 1 (by decide) (by decide) (by decide) (by decide)
        (by decide)).2.2 (by decide),
   ((C3_collision_resolution gB 1 (1, 0) 3 (by decide) (by decide) (by decide) (by decide)
        (by decide)).2.1 (by decide)).1⟩

/-! ## C7: life monotonicity -/

/-- C7: within the movement-and-collision engine, a player's life count
never increases: after a hostile-collision resolution the survivor's
count is either unchanged or lower by exactly one (one hostile
collision, one decrement), and — starting from a count ≥ 1 — it stays
≥ 1 for every surviving player; a player eliminated by the resolution
held exactly one life, i.e. the count reached exactly zero at
elimination and never went negative. -/
theorem C7_life_monotonicity (g : GameState) (uid : Int) (p : Int × Int) (l : Int)
    (hkeys : (g.player_positions.map Prod.fst).Nodup)
    (hvals : (g.player_positions.map (·.2)).Nodup)
    (hpn : g.players.Nodup)
    (hmem : (uid, p) ∈ g.player_positions)
    (hl : lookupKey g.player_lives uid = some l) (hl1 : 1 ≤ l) :
    (∀ l2, lookupKey (check_zombie_collision g).player_lives uid = some l2 →
      (l2 = l ∨ l2 = l - 1) ∧ l2 ≤ l ∧ 1 ≤ l2) ∧
    (lookupKey (check_zombie_collision g).player_positions uid = none → l = 1) := by
  have hspec := check_collision_player_spec g uid p l hkeys hvals hpn hmem hl
  constructor
  · intro l2 hl2
    by_cases hz : p ∈ g.zombies
    · have h := hspec.1 hz
      by_cases he : l = 1
      · rw [(h.2.2 he).2.1] at hl2
        cases hl2
      · have hgt : 1 < l := by omega
        rw [(h.2.1 hgt).1] at hl2
        injection hl2 with h2
        exact ⟨Or.inr (by omega), by omega, by omega⟩
    · have h := (hspec.2 hz).1
      rw [h] at hl2
      injection hl2 with h2
      exact ⟨Or.inl (by omega), by omega, by omega⟩
  · intro hnone
    by_cases hz : p ∈ g.zombies
    · by_cases he : l = 1
      · exact he
      · have hgt : 1 < l := by omega
        rw [((hspec.1 hz).2.1 hgt).2] at hnone
        cases hnone
    · rw [(hspec.2 hz).2] at hnone
      cases hnone

theorem C7_life_monotonicity_witness :
    (((2 : Int) = 3 ∨ (2 : Int) = 3 - 1) ∧ (2 : Int) ≤ 3 ∧ (1 : Int) ≤ 2) ∧
    ((1 : Int) = 1) :=
  ⟨(C7_life_monotonicity gHit 1 (5, 0) 3 (by decide) (by decide) (by decide) (by decide)
      (by decide) (by decide)).1 2 (by decide),
   (C7_life_monotonicity gHit1 1 (5, 0) 1 (by decide) (by decide) (by decide) (by decide)
      (by decide) (by decide)).2 (by decide)⟩

/-! ## Lemmas on `create_next_level`'s carry-over and spawn passes -/

theorem assignSpawns_untouched :
    ∀ (users : List Int) (g : GameState) (attss : List (List (Int × Int)))
      (ex : List (Int × Int)),
      (assignSpawns g users attss ex).players = g.players ∧
      (assignSpawns g users attss ex).player_lives = g.player_lives ∧
      (assignSpawns g users attss ex).player_wins = g.player_wins ∧
      (assignSpawns g users attss ex).player_emojis = g.player_emojis ∧
      (assignSpawns g users attss ex).collected_items = g.collected_items ∧
      (assignSpawns g users attss ex).item_types = g.item_types ∧
      (assignSpawns g users attss ex).level = g.level ∧
      (assignSpawns g users attss ex).items = g.items ∧
      (assignSpawns g users attss ex).portal_pos = g.portal_pos ∧
      (assignSpawns g users attss ex).obstacles = g.obstacles ∧
      (assignSpawns g users attss ex).width = g.width ∧
      (assignSpawns g users attss ex).height = g.height := by
  intro users
  induction users with
  | nil =>
    intro g attss ex
    exact ⟨rfl, rfl, rfl, rfl, rfl, rfl, rfl, rfl, rfl, rfl, rfl, rfl⟩
  | cons u rest ih =>
    intro g attss ex
    simp only [assignSpawns]
    split
    · exact ih g attss.tail ex
    · exact ih _ attss.tail _

theorem assignSpawns_players (users : List Int) (g : GameState)
    (attss : List (List (Int × Int))) (ex : List (Int × Int)) :
    (assignSpawns g users attss ex).players = g.players :=
  (assignSpawns_untouched users g attss ex).1

theorem assignSpawns_lives (users : List Int) (g : GameState)
    (attss : List (List (Int × Int))) (ex : List (Int × Int)) :
    (assignSpawns g users attss ex).player_lives = g.player_lives :=
  (assignSpawns_untouched users g attss ex).2.1

theorem assignSpawns_wins (users : List Int) (g : GameState)
    (attss : List (List (Int × Int))) (ex : List (Int × Int)) :
    (assignSpawns g users attss ex).player_wins = g.player_wins :=
  (assignSpawns_untouched users g attss ex).2.2.1

theorem assignSpawns_emojis (users : List Int) (g : GameState)
    (attss : List (List (Int × Int))) (ex : List (Int × Int)) :
    (assignSpawns g users attss ex).player_emojis = g.player_emojis :=
  (assignSpawns_untouched users g attss ex).2.2.2.1

theorem assignSpawns_collected (users : List Int) (g : GameState)
    (attss : List (List (Int × Int))) (ex : List (Int × Int)) :
    (assignSpawns g users attss ex).collected_items = g.collected_items :=
  (assignSpawns_untouched users g attss ex).2.2.2.2.1

theorem assignSpawns_level (users : List Int) (g : GameState)
    (attss : List (List (Int × Int))) (ex : List (Int × Int)) :
    (assignSpawns g users attss ex).level = g.level :=
  (assignSpawns_untouched users g attss ex).2.2.2.2.2.2.1

theorem assignSpawns_items (users : List Int) (g : GameState)
    (attss : List (List (Int × Int))) (ex : List (Int × Int)) :
    (assignSpawns g users attss ex).items = g.items :=
  (assignSpawns_untouched users g attss ex).2.2.2.2.2.2.2.1

theorem assignSpawns_portal (users : List Int) (g : GameState)
    (attss : List (List (Int × Int))) (ex : List (Int × Int)) :
    (assignSpawns g users attss ex).portal_pos = g.portal_pos :=
  (assignSpawns_untouched users g attss ex).2.2.2.2.2.2.2.2.1

theorem assignSpawns_obstacles (users : List Int) (g : GameState)
    (attss : List (List (Int × Int))) (ex : List (Int × Int)) :
    (assignSpawns g users attss ex).obstacles = g.obstacles :=
  (assignSpawns_untouched users g attss ex).2.2.2.2.2.2.2.2.2.1

theorem assignSpawns_width (users : List Int) (g : GameState)
    (attss : List (List (Int × Int))) (ex : List (Int × Int)) :
    (assignSpawns g users attss ex).width = g.width :=
  (assignSpawns_untouched users g attss ex).2.2.2.2.2.2.2.2.2.2.1

theorem assignSpawns_height (users : List Int) (g : GameState)
    (attss : List (List (Int × Int))) (ex : List (Int × Int)) :
    (assignSpawns g users attss ex).height = g.height :=
  (assignSpawns_untouched users g attss ex).2.2.2.2.2.2.2.2.2.2.2

theorem carry_fold_untouched (prev : GameState) :
    ∀ (users : List Int) (acc : GameState),
      (users.foldl (carryPlayer prev) acc).player_positions = acc.player_positions ∧
      (users.foldl (carryPlayer prev) acc).item_types = acc.item_types ∧
      (users.foldl (carryPlayer prev) acc).level = acc.level ∧
      (users.foldl (carryPlayer prev) acc).items = acc.items ∧
      (users.foldl (carryPlayer prev) acc).portal_pos = acc.portal_pos ∧
      (users.foldl (carryPlayer prev) acc).obstacles = acc.obstacles ∧
      (users.foldl (carryPlayer prev) acc).width = acc.width ∧
      (users.foldl (carryPlayer prev) acc).height = acc.height := by
  intro users
  induction users with
  | nil =>
    intro acc
    exact ⟨rfl, rfl, rfl, rfl, rfl, rfl, rfl, rfl⟩
  | cons u rest ih =>
    intro acc
    simp only [List.foldl_cons]
    exact ih (carryPlayer prev acc u)

theorem carry_fold_positions (prev : GameState) (users : List Int) (acc : GameState) :
    (users.foldl (carryPlayer prev) acc).player_positions = acc.player_positions :=
  (carry_fold_untouched prev users acc).1

theorem carry_fold_item_types (prev : GameState) (users : List Int) (acc : GameState) :
    (users.foldl (carryPlayer prev) acc).item_types = acc.item_types :=
  (carry_fold_untouched prev users acc).2.1

theorem carry_fold_level (prev : GameState) (users : List Int) (acc : GameState) :
    (users.foldl (carryPlayer prev) acc).level = acc.level :=
  (carry_fold_untouched prev users acc).2.2.1

theorem carry_fold_items (prev : GameState) (users : List Int) (acc : GameState) :
    (users.foldl (carryPlayer prev) acc).items = acc.items :=
  (carry_fold_untouched prev users acc).2.2.2.1

theorem carry_fold_portal (prev : GameState) (users : List Int) (acc : GameState) :
    (users.foldl (carryPlayer prev) acc).portal_pos = acc.portal_pos :=
  (carry_fold_untouched prev users acc).2.2.2.2.1

theorem carry_fold_obstacles (prev : GameState) (users : List Int) (acc : GameState) :
    (users.foldl (carryPlayer prev) acc).obstacles = acc.obstacles :=
  (carry_fold_untouched prev users acc).2.2.2.2.2.1

theorem carry_fold_width (prev : GameState) (users : List Int) (acc : GameState) :
    (users.foldl (carryPlayer prev) acc).width = acc.width :=
  (carry_fold_untouched prev users acc).2.2.2.2.2.2.1

theorem carry_fold_height (prev : GameState) (users : List Int) (acc : GameState) :
    (users.foldl (carryPlayer prev) acc).height = acc.height :=
  (carry_fold_untouched prev users acc).2.2.2.2.2.2.2

theorem carry_fold_players (prev : GameState) :
    ∀ (users : List Int) (acc : GameState),
      (users.foldl (carryPlayer prev) acc).players = acc.players ++ users := by
  intro users
  induction users with
  | nil =>
    intro acc
    simp
  | cons u rest ih =>
    intro acc
    simp only [List.foldl_cons]
    rw [ih]
    show (acc.players ++ [u]) ++ rest = acc.players ++ u :: rest
    simp

theorem carry_fold_not_mem (prev : GameState) (uid : Int) :
    ∀ (users : List Int) (acc : GameState), uid ∉ users →
      lookupKey (users.foldl (carryPlayer prev) acc).player_lives uid =
        lookupKey acc.player_lives uid ∧
      lookupKey (users.foldl (carryPlayer prev) acc).player_wins uid =
        lookupKey acc.player_wins uid ∧
      lookupKey (users.foldl (carryPlayer prev) acc).player_emojis uid =
        lookupKey acc.player_emojis uid ∧
      lookupKey (users.foldl (carryPlayer prev) acc).collected_items uid =
        lookupKey acc.collected_items uid := by
  intro users
  induction users with
  | nil =>
    intro acc _
    exact ⟨rfl, rfl, rfl, rfl⟩
  | cons u rest ih =>
    intro acc hmem
    have h1 : uid ≠ u ∧ uid ∉ rest := by
      constructor
      · intro h
        exact hmem (h ▸ List.mem_cons_self u rest)
      · intro h
        exact hmem (List.mem_cons_of_mem u h)
    have h := ih (carryPlayer prev acc u) h1.2
    simp only [List.foldl_cons]
    refine ⟨h.1.trans ?_, h.2.1.trans ?_, h.2.2.1.trans ?_, h.2.2.2.trans ?_⟩
    · exact lookupKey_setKey_ne _ _ _ _ h1.1
    · exact lookupKey_setKey_ne _ _ _ _ h1.1
    · exact lookupKey_setKey_ne _ _ _ _ h1.1
    · exact lookupKey_setKey_ne _ _ _ _ h1.1

theorem carry_fold_mem (prev : GameState) (uid : Int) :
    ∀ (users : List Int) (acc : GameState), uid ∈ users →
      lookupKey (users.foldl (carryPlayer prev) acc).player_lives uid =
        some ((lookupKey prev.player_lives uid).getD 0) ∧
      lookupKey (users.foldl (carryPlayer prev) acc).player_wins uid =
        some ((lookupKey prev.player_wins uid).getD 0) ∧
      lookupKey (users.foldl (carryPlayer prev) acc).player_emojis uid =
        some ((lookupKey prev.player_emojis uid).getD "") ∧
      lookupKey (users.foldl (carryPlayer prev) acc).collected_items uid =
        some (zeroInventory acc.item_types) := by
  intro users
  induction users with
  | nil =>
    intro acc h
    cases h
  | cons u rest ih =>
    intro acc hmem
    simp only [List.foldl_cons]
    by_cases hr : uid ∈ rest
    · exact ih (carryPlayer prev acc u) hr
    · have hu : uid = u := by
        rcases List.mem_cons.mp hmem with h | h
        · exact h
        · exact absurd h hr
      subst hu
      have hnm := carry_fold_not_mem prev uid rest (carryPlayer prev acc uid) hr
      refine ⟨hnm.1.trans ?_, hnm.2.1.trans ?_, hnm.2.2.1.trans ?_, hnm.2.2.2.trans ?_⟩
      · exact lookupKey_setKey_self _ _ _
      · exact lookupKey_setKey_self _ _ _
      · exact lookupKey_setKey_self _ _ _
      · exact lookupKey_setKey_self _ _ _

theorem assignSpawns_positions_not_mem (uid : Int) :
    ∀ (users : List Int) (g : GameState) (attss : List (List (Int × Int)))
      (ex : List (Int × Int)), uid ∉ users →
      lookupKey (assignSpawns g users attss ex).player_positions uid =
        lookupKey g.player_positions uid := by
  intro users
  induction users with
  | nil =>
    intro g attss ex _
    rfl
  | cons u rest ih =>
    intro g attss ex hmem
    have h1 : uid ≠ u ∧ uid ∉ rest := by
      constructor
      · intro h
        exact hmem (h ▸ List.mem_cons_self u rest)
      · intro h
        exact hmem (List.mem_cons_of_mem u h)
    simp only [assignSpawns]
    split
    · exact ih g attss.tail ex h1.2
    · rw [ih _ attss.tail _ h1.2]
      exact lookupKey_setKey_ne _ _ _ _ h1.1

theorem assignSpawns_all_blocked :
    ∀ (users : List Int) (g : GameState) (attss : List (List (Int × Int)))
      (ex : List (Int × Int)),
      (∀ q ∈ scanPositions g.width g.height, q ∈ g.obstacles ++ ex) →
      (∀ atts ∈ attss, ∀ q ∈ atts, q ∈ g.obstacles ++ ex) →
      assignSpawns g users attss ex = g := by
  intro users
  induction users with
  | nil =>
    intro g attss ex _ _
    rfl
  | cons u rest ih =>
    intro g attss ex hscan hatts
    have hgen : generate_start_position g (attss.headD []) ex = none := by
      have hfa : ∀ q ∈ attss.headD [], q ∈ g.obstacles ++ ex := by
        cases attss with
        | nil =>
          intro q hq
          cases hq
        | cons a t => exact hatts a (List.mem_cons_self a t)
      unfold generate_start_position pickFree
      rw [List.find?_eq_none.mpr (fun q hq => by
        simp only [decide_eq_true_eq]
        exact fun hcon => hcon (hfa q hq))]
      rw [List.find?_eq_none.mpr (fun q hq => by
        simp only [decide_eq_true_eq]
        exact fun hcon => hcon (hscan q hq))]
    simp only [assignSpawns, hgen]
    refine ih g attss.tail ex hscan ?_
    intro atts hmem q hq
    exact hatts atts (List.tail_subset attss hmem) q hq

theorem move_absent {g : GameState} {uid dx dy : Int} {ch : List Nat}
    (h : lookupKey g.player_positions uid = none) : move g uid dx dy ch = (false, g) := by
  unfold move
  cases hgo : g.game_over with
  | true => rfl
  | false => simp only [Bool.false_eq_true, if_false, h]


/-! ## Facts about the carry-over stage of `create_next_level` -/

theorem nextLevelBase_players (prev : GameState) (r : NextRand) :
    (nextLevelBase prev r).players = prev.players := by
  unfold nextLevelBase
  rw [carry_fold_players]
  rw [show (initGame (prev.level + 1) none prev.item_types none
    prev.player_emojis_list r.init).players = [] from rfl]
  simp

theorem nextLevelBase_positions (prev : GameState) (r : NextRand) :
    (nextLevelBase prev r).player_positions = [] := by
  unfold nextLevelBase
  rw [carry_fold_positions]
  rfl

theorem nextLevelBase_item_types (prev : GameState) (r : NextRand) :
    (nextLevelBase prev r).item_types = prev.item_types := by
  unfold nextLevelBase
  rw [carry_fold_item_types]
  rfl

theorem nextLevelBase_level (prev : GameState) (r : NextRand) :
    (nextLevelBase prev r).level = prev.level + 1 := by
  unfold nextLevelBase
  rw [carry_fold_level]
  rfl

theorem nextLevelBase_obstacles (prev : GameState) (r : NextRand) :
    (nextLevelBase prev r).obstacles =
      generate_obstacles (levelConfig (prev.level + 1)).obstacle_count
        r.init.obstacleAttempts [] := by
  unfold nextLevelBase
  rw [carry_fold_obstacles]
  rfl

theorem nextLevelBase_mem (prev : GameState) (r : NextRand) (uid : Int)
    (hmem : uid ∈ prev.players) :
    lookupKey (nextLevelBase prev r).player_lives uid =
      some ((lookupKey prev.player_lives uid).getD 0) ∧
    lookupKey (nextLevelBase prev r).player_wins uid =
      some ((lookupKey prev.player_wins uid).getD 0) ∧
    lookupKey (nextLevelBase prev r).player_emojis uid =
      some ((lookupKey prev.player_emojis uid).getD "") ∧
    lookupKey (nextLevelBase prev r).collected_items uid =
      some (zeroInventory prev.item_types) :=
  carry_fold_mem prev uid prev.players
    (initGame (prev.level + 1) none prev.item_types none prev.player_emojis_list r.init) hmem

theorem nextLevelBase_not_mem (prev : GameState) (r : NextRand) (uid : Int)
    (hmem : uid ∉ prev.players) :
    lookupKey (nextLevelBase prev r).player_lives uid = none ∧
    lookupKey (nextLevelBase prev r).player_wins uid = none := by
  have hc := carry_fold_not_mem prev uid prev.players
    (initGame (prev.level + 1) none prev.item_types none prev.player_emojis_list r.init) hmem
  exact ⟨hc.1.trans rfl, hc.2.1.trans rfl⟩

/-! ## C4: level transition -/

/-- C4: `create_next_level(previous)` yields a session at level
`previous.level + 1`, whose roster is exactly the previous session's
active roster in order (eliminated players, absent from that roster,
get no entry at all), preserving each carried player's visual identity,
life count, and win counter bit-for-bit, resetting each carried
inventory to all-zero counts over the same item catalog, generating the
field freshly from the new level's configuration, and resetting the
level-complete, winner, and game-over flags and the AI-tick counter.
(Collection aliasing has no counterpart in this functional model; all
collections are values.) -/
theorem C4_create_next_level (prev : GameState) (r : NextRand) :
    (create_next_level prev r).level = prev.level + 1 ∧
    (create_next_level prev r).players = prev.players ∧
    (create_next_level prev r).item_types = prev.item_types ∧
    (create_next_level prev r).obstacles =
      generate_obstacles (levelConfig (prev.level + 1)).obstacle_count
        r.init.obstacleAttempts [] ∧
    (∀ uid ∈ prev.players,
      (∀ lv, lookupKey prev.player_lives uid = some lv →
        lookupKey (create_next_level prev r).player_lives uid = some lv) ∧
      (∀ w, lookupKey prev.player_wins uid = some w →
        lookupKey (create_next_level prev r).player_wins uid = some w) ∧
      (∀ em, lookupKey prev.player_emojis uid = some em →
        lookupKey (create_next_level prev r).player_emojis uid = some em) ∧
      lookupKey (create_next_level prev r).collected_items uid =
        some (zeroInventory prev.item_types)) ∧
    (∀ uid, uid ∉ prev.players →
      lookupKey (create_next_level prev r).player_lives uid = none ∧
      lookupKey (create_next_level prev r).player_wins uid = none ∧
      lookupKey (create_next_level prev r).player_positions uid = none) ∧
    (create_next_level prev r).level_complete = false ∧
    (create_next_level prev r).winner = none ∧
    (create_next_level prev r).game_over = false ∧
    (create_next_level prev r).zombie_move_counter = 0 := by
  refine ⟨?_, ?_, ?_, ?_, ?_, ?_, rfl, rfl, rfl, rfl⟩
  · simp only [create_next_level, assignSpawns_level]
    exact nextLevelBase_level prev r
  · simp only [create_next_level, assignSpawns_players]
    exact nextLevelBase_players prev r
  · simp only [create_next_level, assignSpawns_untouched]
    exact nextLevelBase_item_types prev r
  · simp only [create_next_level, assignSpawns_obstacles]
    exact nextLevelBase_obstacles prev r
  · intro uid hmem
    have hc := nextLevelBase_mem prev r uid hmem
    refine ⟨?_, ?_, ?_, ?_⟩
    · intro lv hlv
      have h1 : lookupKey (create_next_level prev r).player_lives uid =
          some ((lookupKey prev.player_lives uid).getD 0) := by
        simp only [create_next_level, assignSpawns_lives]
        exact hc.1
      rw [hlv] at h1
      simpa using h1
    · intro w hw
      have h1 : lookupKey (create_next_level prev r).player_wins uid =
          some ((lookupKey prev.player_wins uid).getD 0) := by
        simp only [create_next_level, assignSpawns_wins]
        exact hc.2.1
      rw [hw] at h1
      simpa using h1
    · intro em hem
      have h1 : lookupKey (create_next_level prev r).player_emojis uid =
          some ((lookupKey prev.player_emojis uid).getD "") := by
        simp only [create_next_level, assignSpawns_emojis]
        exact hc.2.2.1
      rw [hem] at h1
      simpa using h1
    · simp only [create_next_level, assignSpawns_collected]
      exact hc.2.2.2
  · intro uid hmem
    have hc := nextLevelBase_not_mem prev r uid hmem
    refine ⟨?_, ?_, ?_⟩
    · simp only [create_next_level, assignSpawns_lives]
      exact hc.1
    · simp only [create_next_level, assignSpawns_wins]
      exact hc.2
    · have husers : uid ∉ (nextLevelBase prev r).players := by
        rw [nextLevelBase_players]
        exact hmem
      simp only [create_next_level]
      rw [assignSpawns_positions_not_mem uid _ _ _ _ husers]
      rw [nextLevelBase_positions]
      rfl

/-- Concrete draws for a level-2 transition from `gB`. -/
def c4rand : NextRand :=
  ⟨⟨2, [(0, 0)], 2, [], [(5, 5)], 1, [(7, 3)], []⟩, [[(2, 2)]], 1, [(7, 3)]⟩

theorem C4_create_next_level_witness :
    (create_next_level gB c4rand).level = 2 ∧
    (create_next_level gB c4rand).players = gB.players ∧
    lookupKey (create_next_level gB c4rand).player_lives 1 = some 3 ∧
    lookupKey (create_next_level gB c4rand).player_wins 1 = some 0 ∧
    lookupKey (create_next_level gB c4rand).player_emojis 1 = some "🟢" ∧
    lookupKey (create_next_level gB c4rand).collected_items 1 =
      some (zeroInventory gB.item_types) ∧
    lookupKey (create_next_level gB c4rand).player_lives 99 = none ∧
    (create_next_level gB c4rand).winner = none :=
  ⟨(C4_create_next_level gB c4rand).1,
   (C4_create_next_level gB c4rand).2.1,
   ((C4_create_next_level gB c4rand).2.2.2.2.1 1 (by decide)).1 3 (by decide),
   ((C4_create_next_level gB c4rand).2.2.2.2.1 1 (by decide)).2.1 0 (by decide),
   ((C4_create_next_level gB c4rand).2.2.2.2.1 1 (by decide)).2.2.1 "🟢" (by decide),
   ((C4_create_next_level gB c4rand).2.2.2.2.1 1 (by decide)).2.2.2,
   ((C4_create_next_level gB c4rand).2.2.2.2.2.1 99 (by decide)).1,
   (C4_create_next_level gB c4rand).2.2.2.2.2.2.2.1⟩

/-! ## C9: graceful spawn exhaustion in `create_next_level` -/

theorem nextLevelExclusions_mem {g1 : GameState} {q : Int × Int}
    (h : q ∈ g1.items.map (·.1) ∨ g1.portal_pos = some q) :
    q ∈ nextLevelExclusions g1 := by
  unfold nextLevelExclusions
  rw [List.mem_append]
  rcases h with h | h
  · exact Or.inl h
  · right
    rw [h]
    exact List.mem_singleton.mpr rfl

/-- C9: when the spawn pass of `create_next_level` can find no free cell
(every field cell of the freshly generated level, and every random spawn
draw, is covered by the new obstacles, items, or portal), the transition
still completes — it is a total state-producing operation, never a
failure — and each carried player keeps their roster entry, life count,
win counter, and reset inventory but receives no entry in the position
table, so every subsequent `move` call by that player returns false and
leaves the new session unchanged. -/
theorem C9_spawn_exhaustion (prev : GameState) (r : NextRand) (uid : Int)
    (hmem : uid ∈ prev.players)
    (hfull : ∀ q ∈ scanPositions (nextLevelBase prev r).width (nextLevelBase prev r).height,
      q ∈ (nextLevelBase prev r).obstacles ∨ q ∈ (nextLevelBase prev r).items.map (·.1) ∨
        (nextLevelBase prev r).portal_pos = some q)
    (hattsf : ∀ atts ∈ r.spawnAttemptss, ∀ q ∈ atts,
      q ∈ (nextLevelBase prev r).obstacles ∨ q ∈ (nextLevelBase prev r).items.map (·.1) ∨
        (nextLevelBase prev r).portal_pos = some q) :
    uid ∈ (create_next_level prev r).players ∧
    lookupKey (create_next_level prev r).player_lives uid =
      some ((lookupKey prev.player_lives uid).getD 0) ∧
    lookupKey (create_next_level prev r).player_wins uid =
      some ((lookupKey prev.player_wins uid).getD 0) ∧
    lookupKey (create_next_level prev r).collected_items uid =
      some (zeroInventory prev.item_types) ∧
    lookupKey (create_next_level prev r).player_positions uid = none ∧
    (∀ dx dy ch, move (create_next_level prev r) uid dx dy ch =
      (false, create_next_level prev r)) := by
  have hblocked : ∀ q, (q ∈ (nextLevelBase prev r).obstacles ∨
      q ∈ (nextLevelBase prev r).items.map (·.1) ∨
      (nextLevelBase prev r).portal_pos = some q) →
      q ∈ (nextLevelBase prev r).obstacles ++ nextLevelExclusions (nextLevelBase prev r) := by
    intro q hq
    rw [List.mem_append]
    rcases hq with h | h
    · exact Or.inl h
    · exact Or.inr (nextLevelExclusions_mem h)
  have hassign : assignSpawns (nextLevelBase prev r) (nextLevelBase prev r).players
      r.spawnAttemptss (nextLevelExclusions (nextLevelBase prev r)) = nextLevelBase prev r :=
    assignSpawns_all_blocked _ _ _ _
      (fun q hq => hblocked q (hfull q hq))
      (fun atts hm q hq => hblocked q (hattsf atts hm q hq))
  have hc := nextLevelBase_mem prev r uid hmem
  refine ⟨?_, ?_, ?_, ?_, ?_, ?_⟩
  · simp only [create_next_level, assignSpawns_players]
    rw [nextLevelBase_players]
    exact hmem
  · simp only [create_next_level, assignSpawns_lives]
    exact hc.1
  · simp only [create_next_level, assignSpawns_wins]
    exact hc.2.1
  · simp only [create_next_level, assignSpawns_collected]
    exact hc.2.2.2
  · simp only [create_next_level]
    rw [hassign, nextLevelBase_positions]
    rfl
  · intro dx dy ch
    apply move_absent
    simp only [create_next_level]
    rw [hassign]
    show lookupKey (nextLevelBase prev r).player_positions uid = none
    rw [nextLevelBase_positions]
    rfl

/-- All cells of the new 10×6 level except (9,5), as typed item draws. -/
def c9items : List ((Int × Int) × String) :=
  ((scanPositions 10 6).filter (fun q => q ≠ (9, 5))).map (fun q => (q, "wood"))

/-- A one-player level-1 session about to transition. -/
def c9prev : GameState :=
  ⟨8, 5, [], ITEM_TYPES, 2, DEFAULT_PLAYER_EMOJIS, 1, [1], [(1, (1, 1))],
   [(1, zeroInventory ITEM_TYPES)], [(1, 2)], [(1, "🟢")], [(1, 4)], none, [], none, false,
   [], 0, false⟩

/-- Draws that saturate the new level: 58 items plus the portal cover
every cell of the 10×6 field not taken by the obstacle at (0,0). -/
def c9rand : NextRand :=
  ⟨⟨55, [(0, 0)], 4, c9items, [(9, 5)], 1, [], []⟩, [], 1, []⟩

theorem C9_spawn_exhaustion_witness :
    (1 : Int) ∈ (create_next_level c9prev c9rand).players ∧
    lookupKey (create_next_level c9prev c9rand).player_lives 1 = some 2 ∧
    lookupKey (create_next_level c9prev c9rand).player_wins 1 = some 4 ∧
    lookupKey (create_next_level c9prev c9rand).collected_items 1 =
      some (zeroInventory ITEM_TYPES) ∧
    lookupKey (create_next_level c9prev c9rand).player_positions 1 = none ∧
    move (create_next_level c9prev c9rand) 1 0 1 [] =
      (false, create_next_level c9prev c9rand) :=
  ⟨(C9_spawn_exhaustion c9prev c9rand 1 (by decide) (by decide) (by decide)).1,
   (C9_spawn_exhaustion c9prev c9rand 1 (by decide) (by decide) (by decide)).2.1,
   (C9_spawn_exhaustion c9prev c9rand 1 (by decide) (by decide) (by decide)).2.2.1,
   (C9_spawn_exhaustion c9prev c9rand 1 (by decide) (by decide) (by decide)).2.2.2.1,
   (C9_spawn_exhaustion c9prev c9rand 1 (by decide) (by decide) (by decide)).2.2.2.2.1,
   (C9_spawn_exhaustion c9prev c9rand 1 (by decide) (by decide) (by decide)).2.2.2.2.2 0 1 []⟩
